import Mathlib

/-! VoronoiDiagram2D: the mesh bookkeeping of `itkVoronoiDiagram2D.h`.

A shallow embedding of the inline member functions of `itk::VoronoiDiagram2D`
(`Modules/Segmentation/Voronoi/include/itkVoronoiDiagram2D.h`) and the
properties of them that the specification states.

Conventions of the embedding.

* The private state of the class is the record `VoronoiDiagram2D`; a member
  function is a function of the state before the call.  A `void` mutator gives
  back the state after the call, an accessor gives back its value.
* `std::vector::operator[]` does no bounds check: indexing outside the vector
  is undefined behaviour, and so is the use of a null smart pointer.  A call
  that does this yields `Except.error Fault.undefinedBehaviour`; nothing is
  said about what happens afterwards.
* The C++ type `int` is 32 bits wide.  Values of type `int` are carried as
  `Int`; the narrowing `static_cast<int>` of a container size is the explicit
  function `static_cast_int`.  An `int` used as a vector index is converted to
  the unsigned `size_type`: a negative one becomes larger than any size.
* The template parameter `TCoordType` is the type parameter `C`.

After the mesh come two smaller parts of the repository: the buffer test
`ImageFunction::IsInsideBuffer` of `itkImageFunction.h`, and the option loop and
the baseline loop of `main` in `itkTestDriver.cxx`.
-/

namespace itk

/-- How a call can go wrong. -/
inductive Fault where
  /-- The call indexes a `std::vector` outside its bounds or dereferences a
  null pointer: the C++ standard gives it no meaning. -/
  | undefinedBehaviour
  /-- The call is refused with an out-of-range condition. -/
  | outOfRange
  deriving DecidableEq, Repr

deriving instance DecidableEq for Except

/-- The type `Point<TCoordType, 2>`: a point of the plane. -/
structure PointType (C : Type) where
  x : C
  y : C
  deriving DecidableEq, Repr

/-- The type `EdgeInfo = Point<int, 2>`: two `int` components, `x[0]` and `x[1]`. -/
structure EdgeInfo where
  c0 : Int
  c1 : Int
  deriving DecidableEq, Repr

/-- The nested class `VoronoiEdge` (header lines 168-178). -/
structure VoronoiEdge (C : Type) where
  m_Left : PointType C
  m_Right : PointType C
  m_LeftID : Int
  m_RightID : Int
  m_LineID : Int
  deriving DecidableEq, Repr

/-- Modelled from the spec: the class `PolygonCell` is declared in
`itkPolygonCell.h`, which is not among the sources.  The specification describes
a region as "a polygon, one per seed, defined by an ordered sequence of vertex
identifiers", which "exclusively owns its own boundary point-id sequence";
`m_Edges` holds the boundary edges that `BuildEdges` materialises. -/
structure PolygonCell where
  m_PointIds : List Int
  m_Edges : List (Int × Int)
  deriving DecidableEq, Repr

/-- Modelled from the spec: `PolygonCell::ClearPoints`, "clears only the named
Region's accumulated point sequence". -/
def PolygonCell.ClearPoints (c : PolygonCell) : PolygonCell :=
  { c with m_PointIds := [] }

/-- Modelled from the spec: `PolygonCell::AddPointId`, "appends a vertex id to
the named Region's boundary sequence". -/
def PolygonCell.AddPointId (c : PolygonCell) (x : Int) : PolygonCell :=
  { c with m_PointIds := c.m_PointIds ++ [x] }

/-- Modelled from the spec: `PolygonCell::BuildEdges`, which makes the region
"materialize its boundary edges from its currently accumulated vertex-id
sequence" and "must preserve the insertion order of point ids as the polygon's
winding order": one edge from each point id to the next, the last one back to
the first. -/
def PolygonCell.BuildEdges (c : PolygonCell) : PolygonCell :=
  { c with m_Edges := c.m_PointIds.zip (c.m_PointIds.rotate 1) }

/-- Modelled from the spec: the points container `MeshTraits::PointsContainer`
is declared outside the sources.  The specification asks of it "identifier-indexed
storage", "size query, clear, and indexed access", and that it "is assumed to
throw/fail on invalid index rather than return undefined data".  It is a finite
map from point identifiers to points. -/
structure PointsContainer (C : Type) where
  m_Map : AList (fun _ : Nat => PointType C)

/-- Modelled from the spec: `PointsContainer::New()`, an empty container. -/
def PointsContainer.New {C : Type} : PointsContainer C := ⟨∅⟩

/-- Modelled from the spec: `Size()`, the number of stored elements. -/
def PointsContainer.Size {C : Type} (p : PointsContainer C) : Nat :=
  p.m_Map.keys.length

/-- Modelled from the spec: `Initialize()`, which clears the container. -/
def PointsContainer.Initialize {C : Type} (_p : PointsContainer C) : PointsContainer C := ⟨∅⟩

/-- Modelled from the spec: `InsertElement(id, element)` stores `element` under
the identifier `id`. -/
def PointsContainer.InsertElement {C : Type} (p : PointsContainer C) (id : Nat)
    (x : PointType C) : PointsContainer C :=
  ⟨p.m_Map.insert id x⟩

/-- Modelled from the spec: `ElementAt(id)`, indexed access that fails with an
out-of-range condition when no element is stored under `id`. -/
def PointsContainer.ElementAt {C : Type} (p : PointsContainer C) (id : Nat) :
    Except Fault (PointType C) :=
  match p.m_Map.lookup id with
  | some x => .ok x
  | none => .error .outOfRange

/-- The state of a `VoronoiDiagram2D` object: the private members of header
lines 327-335 and the points container `m_PointsContainer` inherited from the
mesh, a smart pointer that may be null (`none`).  The regions are held by value,
one cell per slot of `m_VoronoiRegions`. -/
structure VoronoiDiagram2D (C : Type) where
  m_PointsContainer : Option (PointsContainer C)
  m_Seeds : List (PointType C)
  m_NumberOfSeeds : Nat
  m_VoronoiRegions : List PolygonCell
  m_VoronoiBoundary : PointType C
  m_VoronoiBoundaryOrigin : PointType C
  m_CellNeighborsID : List (List Int)
  m_LineList : List EdgeInfo
  m_EdgeList : List (VoronoiEdge C)

/-- The cast `static_cast<int>(n)` of an unsigned size: the value modulo `2^32`, read as
a two's complement 32-bit number. -/
def static_cast_int (n : Nat) : Int :=
  if n % 2 ^ 32 < 2 ^ 31 then ((n % 2 ^ 32 : Nat) : Int) else ((n % 2 ^ 32 : Nat) : Int) - 2 ^ 32

/-- The element `v[id]` for a `std::vector` `v` and an `int` index `id`: the element when
`0 ≤ id < v.size()`, undefined behaviour otherwise (a negative `id` converts to
an unsigned index beyond every size). -/
def vectorAt {α : Type} (v : List α) (id : Int) : Except Fault α :=
  if 0 ≤ id then
    match v[id.toNat]? with
    | some a => .ok a
    | none => .error .undefinedBehaviour
  else .error .undefinedBehaviour

/-- The assignment `v[id] = f (v[id])`: an update in place of the element `v[id]`, with the
bounds behaviour of `vectorAt`. -/
def vectorUpdate {α : Type} (v : List α) (id : Int) (f : α → α) : Except Fault (List α) :=
  match vectorAt v id with
  | .ok a => .ok (v.set id.toNat (f a))
  | .error e => .error e

namespace VoronoiDiagram2D

variable {C : Type}

/-- The accessor `GetNumberOfSeeds` (header line 128, `itkGetConstMacro`). -/
def GetNumberOfSeeds (s : VoronoiDiagram2D C) : Nat := s.m_NumberOfSeeds

/-- The member `AddCellNeighbor` (header lines 202-207): two `push_back`s, the first on
`m_CellNeighborsID[x[0]]`, the second on `m_CellNeighborsID[x[1]]`. -/
def AddCellNeighbor (s : VoronoiDiagram2D C) (x : EdgeInfo) : Except Fault (VoronoiDiagram2D C) :=
  match vectorUpdate s.m_CellNeighborsID x.c0 (fun l => l ++ [x.c1]) with
  | .error e => .error e
  | .ok n0 =>
    match vectorUpdate n0 x.c1 (fun l => l ++ [x.c0]) with
    | .error e => .error e
    | .ok n1 => .ok { s with m_CellNeighborsID := n1 }

/-- The member `ClearRegion` (header lines 209-213). -/
def ClearRegion (s : VoronoiDiagram2D C) (i : Int) : Except Fault (VoronoiDiagram2D C) :=
  match vectorUpdate s.m_VoronoiRegions i PolygonCell.ClearPoints with
  | .error e => .error e
  | .ok r => .ok { s with m_VoronoiRegions := r }

/-- The member `VoronoiRegionAddPointId` (header lines 215-219). -/
def VoronoiRegionAddPointId (s : VoronoiDiagram2D C) (id x : Int) :
    Except Fault (VoronoiDiagram2D C) :=
  match vectorUpdate s.m_VoronoiRegions id (fun c => c.AddPointId x) with
  | .error e => .error e
  | .ok r => .ok { s with m_VoronoiRegions := r }

/-- The member `BuildEdge` (header lines 221-225). -/
def BuildEdge (s : VoronoiDiagram2D C) (id : Int) : Except Fault (VoronoiDiagram2D C) :=
  match vectorUpdate s.m_VoronoiRegions id PolygonCell.BuildEdges with
  | .error e => .error e
  | .ok r => .ok { s with m_VoronoiRegions := r }

/-- The member `LineListClear` (header lines 227-231). -/
def LineListClear (s : VoronoiDiagram2D C) : VoronoiDiagram2D C :=
  { s with m_LineList := [] }

/-- The member `EdgeListClear` (header lines 233-237). -/
def EdgeListClear (s : VoronoiDiagram2D C) : VoronoiDiagram2D C :=
  { s with m_EdgeList := [] }

/-- The member `VertexListClear` (header lines 239-248): a null container is first
replaced by a new one, then the container is initialised. -/
def VertexListClear (s : VoronoiDiagram2D C) : VoronoiDiagram2D C :=
  let p := match s.m_PointsContainer with
    | none => PointsContainer.New
    | some p => p
  { s with m_PointsContainer := some p.Initialize }

/-- The member `LineListSize` (header lines 250-254). -/
def LineListSize (s : VoronoiDiagram2D C) : Int :=
  static_cast_int s.m_LineList.length

/-- The member `EdgeListSize` (header lines 256-260). -/
def EdgeListSize (s : VoronoiDiagram2D C) : Int :=
  static_cast_int s.m_EdgeList.length

/-- The member `VertexListSize` (header lines 262-266): dereferences the container. -/
def VertexListSize (s : VoronoiDiagram2D C) : Except Fault Int :=
  match s.m_PointsContainer with
  | none => .error .undefinedBehaviour
  | some p => .ok (static_cast_int p.Size)

/-- The member `AddLine` (header lines 268-272): returns nothing. -/
def AddLine (s : VoronoiDiagram2D C) (x : EdgeInfo) : VoronoiDiagram2D C :=
  { s with m_LineList := s.m_LineList ++ [x] }

/-- The member `AddEdge` (header lines 274-278): returns nothing. -/
def AddEdge (s : VoronoiDiagram2D C) (x : VoronoiEdge C) : VoronoiDiagram2D C :=
  { s with m_EdgeList := s.m_EdgeList ++ [x] }

/-- The member `AddVert` (header lines 280-284): returns nothing; inserts under the
identifier `Size()`. -/
def AddVert (s : VoronoiDiagram2D C) (x : PointType C) : Except Fault (VoronoiDiagram2D C) :=
  match s.m_PointsContainer with
  | none => .error .undefinedBehaviour
  | some p => .ok { s with m_PointsContainer := some (p.InsertElement p.Size x) }

/-- The member `GetLine` (header lines 286-290). -/
def GetLine (s : VoronoiDiagram2D C) (id : Int) : Except Fault EdgeInfo :=
  vectorAt s.m_LineList id

/-- The member `GetEdge` (header lines 292-296). -/
def GetEdge (s : VoronoiDiagram2D C) (id : Int) : Except Fault (VoronoiEdge C) :=
  vectorAt s.m_EdgeList id

/-- The member `GetVertex` (header lines 298-302): the `int` identifier is converted to
the unsigned 64-bit `PointIdentifier` of `ElementAt`. -/
def GetVertex (s : VoronoiDiagram2D C) (id : Int) : Except Fault (PointType C) :=
  match s.m_PointsContainer with
  | none => .error .undefinedBehaviour
  | some p => p.ElementAt (id % 2 ^ 64).toNat

/-- The member `GetEdgeEnd` (header lines 304-312). -/
def GetEdgeEnd (s : VoronoiDiagram2D C) (id : Int) : Except Fault EdgeInfo :=
  match vectorAt s.m_EdgeList id with
  | .error e => .error e
  | .ok e => .ok ⟨e.m_LeftID, e.m_RightID⟩

/-- The member `GetEdgeLineID` (header lines 314-318). -/
def GetEdgeLineID (s : VoronoiDiagram2D C) (id : Int) : Except Fault Int :=
  match vectorAt s.m_EdgeList id with
  | .error e => .error e
  | .ok e => .ok e.m_LineID

/-- The neighbour list of the seed `a`: the vector `m_CellNeighborsID[a]` that
`NeighborIdsBegin(a)` and `NeighborIdsEnd(a)` delimit. -/
def neighbors (s : VoronoiDiagram2D C) (a : Int) : Except Fault (List Int) :=
  vectorAt s.m_CellNeighborsID a

/-- The point-id sequence of the region of the seed `i`. -/
def regionPointIds (s : VoronoiDiagram2D C) (i : Int) : Except Fault (List Int) :=
  match vectorAt s.m_VoronoiRegions i with
  | .error e => .error e
  | .ok c => .ok c.m_PointIds

/-- Modelled from the spec: the body of `SetSeeds` is in `itkVoronoiDiagram2D.hxx`,
which is not among the sources.  "Replaces the seed set; assigns seed id =
position in the input sequence; sets `NumberOfSeeds = len(seeds)`."  The header
declares `SetSeeds(int num, SeedsIterator begin)`; the specification reads the
two arguments as the sequence of the `num` points that start at `begin`. -/
def SetSeeds (s : VoronoiDiagram2D C) (seeds : List (PointType C)) : VoronoiDiagram2D C :=
  { s with m_Seeds := seeds, m_NumberOfSeeds := seeds.length }

/-- Modelled from the spec: the body of `GetSeed` is in `itkVoronoiDiagram2D.hxx`.
"Returns the seed point for a valid id.  Fails with an out-of-range condition if
`id` is not in `[0, NumberOfSeeds)`." -/
def GetSeed (s : VoronoiDiagram2D C) (SeedID : Int) : Except Fault (PointType C) :=
  if 0 ≤ SeedID ∧ SeedID < s.m_NumberOfSeeds then
    match s.m_Seeds[SeedID.toNat]? with
    | some p => .ok p
    | none => .error .outOfRange
  else .error .outOfRange

/-- Modelled from the spec: the body of `InsertCells` is in
`itkVoronoiDiagram2D.hxx`.  "(Re)allocates `NumberOfSeeds` empty Regions and
empty Neighbor-Adjacency lists." -/
def InsertCells (s : VoronoiDiagram2D C) : VoronoiDiagram2D C :=
  { s with
    m_VoronoiRegions := List.replicate s.m_NumberOfSeeds ⟨[], []⟩,
    m_CellNeighborsID := List.replicate s.m_NumberOfSeeds [] }

/-- Modelled from the spec: the body of `Reset` is in `itkVoronoiDiagram2D.hxx`.
"Seeds are NOT cleared by Reset (seed state is independent — Reset clears lines,
edges, and vertices only)": the three list clears of the header, one after the
other. -/
def Reset (s : VoronoiDiagram2D C) : VoronoiDiagram2D C :=
  s.LineListClear.EdgeListClear.VertexListClear

/-- Modelled from the spec: the body of `GetSeedsIDAroundEdge` is in
`itkVoronoiDiagram2D.hxx`.  "Resolves, via the edge's `lineId`, the two seeds
whose shared boundary the edge lies on — i.e., `GetLine(edge.lineId)`." -/
def GetSeedsIDAroundEdge (s : VoronoiDiagram2D C) (task : VoronoiEdge C) :
    Except Fault EdgeInfo :=
  GetLine s task.m_LineID

/-- Modelled from the spec: the constructor is in `itkVoronoiDiagram2D.hxx`.
"A Mesh instance starts empty"; the point storage is "a field owned by the Mesh
with explicit initialization in the constructor".  The two boundary points,
which have no initial value of their own, start at the parameter `origin`. -/
def new (origin : PointType C) : VoronoiDiagram2D C :=
  { m_PointsContainer := some PointsContainer.New
    m_Seeds := []
    m_NumberOfSeeds := 0
    m_VoronoiRegions := []
    m_VoronoiBoundary := origin
    m_VoronoiBoundaryOrigin := origin
    m_CellNeighborsID := []
    m_LineList := []
    m_EdgeList := [] }

/-- The mutators of the mesh that the builder calls, with their arguments. -/
inductive Mutator (C : Type) where
  | addCellNeighbor (x : EdgeInfo)
  | addLine (x : EdgeInfo)
  | addEdge (x : VoronoiEdge C)
  | addVert (x : PointType C)
  | voronoiRegionAddPointId (id x : Int)
  | clearRegion (i : Int)
  | lineListClear
  | edgeListClear
  | vertexListClear

/-- One call of a mutator. -/
def Mutator.apply (s : VoronoiDiagram2D C) : Mutator C → Except Fault (VoronoiDiagram2D C)
  | .addCellNeighbor x => s.AddCellNeighbor x
  | .addLine x => .ok (s.AddLine x)
  | .addEdge x => .ok (s.AddEdge x)
  | .addVert x => s.AddVert x
  | .voronoiRegionAddPointId id x => s.VoronoiRegionAddPointId id x
  | .clearRegion i => s.ClearRegion i
  | .lineListClear => .ok s.LineListClear
  | .edgeListClear => .ok s.EdgeListClear
  | .vertexListClear => .ok s.VertexListClear

/-- A sequence of mutator calls, made one after the other; it stops at the
first call that goes wrong. -/
def run (s : VoronoiDiagram2D C) : List (Mutator C) → Except Fault (VoronoiDiagram2D C)
  | [] => .ok s
  | m :: ms =>
    match m.apply s with
    | .error e => .error e
    | .ok s1 => run s1 ms

/-- What a neighbour list holds after `AddCellNeighbor(x)`: the list before the
call, then `x[1]` when the list is that of `x[0]`, then `x[0]` when the list is
that of `x[1]`. -/
def neighborsAfter (x : EdgeInfo) (j : Int) (l : List Int) : List Int :=
  (if j = x.c0 then l ++ [x.c1] else l) ++ (if j = x.c1 then [x.c0] else [])

/-- Neighbour adjacency is symmetric: for all seed ids `a` and `b` that have a
neighbour list, `b` is in the list of `a` exactly when `a` is in the list of
`b`. -/
def NeighborsSymmetric (s : VoronoiDiagram2D C) : Prop :=
  ∀ a b la lb, s.neighbors a = .ok la → s.neighbors b = .ok lb → (b ∈ la ↔ a ∈ lb)

/-- The scenario of the specification, up to the allocation of the per-seed
slots: a new mesh, the three seeds `(0,0)`, `(10,0)`, `(5,10)`, `InsertCells`. -/
def scenarioSeeded : VoronoiDiagram2D Int :=
  InsertCells (SetSeeds (new ⟨0, 0⟩) [⟨0, 0⟩, ⟨10, 0⟩, ⟨5, 10⟩])

/-- The scenario continued: the pair `(0, 1)` recorded as neighbours. -/
def scenarioNeighbors : VoronoiDiagram2D Int :=
  { scenarioSeeded with m_CellNeighborsID := [[1], [0], []] }

/-- A mesh that holds `n` lines, each the pair `(0, 0)`, and nothing else. -/
def manyLines (n : Nat) : VoronoiDiagram2D Int :=
  { new ⟨0, 0⟩ with m_LineList := List.replicate n ⟨0, 0⟩ }

/-- The number of lines appended since the last `LineListClear`, one call on. -/
def lineCount (n : Nat) : Mutator C → Nat
  | .addLine _ => n + 1
  | .lineListClear => 0
  | _ => n

/-- The number of edges appended since the last `EdgeListClear`, one call on. -/
def edgeCount (n : Nat) : Mutator C → Nat
  | .addEdge _ => n + 1
  | .edgeListClear => 0
  | _ => n

/-- The number of vertices appended since the last `VertexListClear`, one call on. -/
def vertCount (n : Nat) : Mutator C → Nat
  | .addVert _ => n + 1
  | .vertexListClear => 0
  | _ => n

/-- The number of `AddLine` calls of a sequence made since its last
`LineListClear` (since its beginning when it has none). -/
def linesSinceClear (ms : List (Mutator C)) : Nat := ms.foldl lineCount 0

/-- The number of `AddEdge` calls of a sequence made since its last
`EdgeListClear` (since its beginning when it has none). -/
def edgesSinceClear (ms : List (Mutator C)) : Nat := ms.foldl edgeCount 0

/-- The number of `AddVert` calls of a sequence made since its last
`VertexListClear` (since its beginning when it has none). -/
def vertsSinceClear (ms : List (Mutator C)) : Nat := ms.foldl vertCount 0

/-- The stored identifiers of a points container are `0, ..., Size() - 1`. -/
def PointsDense (c : PointsContainer C) : Prop :=
  ∀ k, k ∈ c.m_Map.keys ↔ k < c.Size

/-- The calls the builder makes in the scenario of the specification after the
slots are allocated: the vertex `(5,3)`, the line `(0,1)`, and the edge with
both ends at that vertex, left seed `0`, right seed `1`, line `0`. -/
def scenarioCalls : List (Mutator Int) :=
  [.addVert ⟨5, 3⟩, .addLine ⟨0, 1⟩, .addEdge ⟨⟨5, 3⟩, ⟨5, 3⟩, 0, 1, 0⟩]

/-- The state at the end of the scenario of the specification. -/
def scenarioBuilt : VoronoiDiagram2D Int :=
  { scenarioSeeded with
    m_PointsContainer := some (PointsContainer.New.InsertElement 0 ⟨5, 3⟩)
    m_LineList := [⟨0, 1⟩]
    m_EdgeList := [⟨⟨5, 3⟩, ⟨5, 3⟩, 0, 1, 0⟩] }

/-- The value a call of `AddLine` hands back to its caller: the function is
declared `void AddLine(EdgeInfo x)`, there is none. -/
def AddLine_returned (_s : VoronoiDiagram2D C) (_x : EdgeInfo) : Option Int := none

/-- The value a call of `AddEdge` hands back to its caller: the function is
declared `void AddEdge(VoronoiEdge x)`, there is none. -/
def AddEdge_returned (_s : VoronoiDiagram2D C) (_x : VoronoiEdge C) : Option Int := none

/-- The value a call of `AddVert` hands back to its caller: the function is
declared `void AddVert(PointType x)`, there is none. -/
def AddVert_returned (_s : VoronoiDiagram2D C) (_x : PointType C) : Option Int := none

/-- A mesh that holds `n` edges, each with every field `0`, and nothing else. -/
def manyEdges (n : Nat) : VoronoiDiagram2D Int :=
  { new ⟨0, 0⟩ with m_EdgeList := List.replicate n ⟨⟨0, 0⟩, ⟨0, 0⟩, 0, 0, 0⟩ }

/-- The calls `AddEdge`, `AddLine`, `AddVert` and `AddCellNeighbor`. -/
def Mutator.isAppend : Mutator C → Bool
  | .addEdge _ => true
  | .addLine _ => true
  | .addVert _ => true
  | .addCellNeighbor _ => true
  | _ => false

/-- The scenario continued: vertex `0` put on the boundary of the regions of the
seeds `0` and `1`. -/
def scenarioRegions : VoronoiDiagram2D Int :=
  { scenarioBuilt with m_VoronoiRegions := [⟨[0], []⟩, ⟨[0], []⟩, ⟨[], []⟩] }

/-- The calls `LineListClear`, `EdgeListClear` and `VertexListClear`. -/
def Mutator.isClear : Mutator C → Bool
  | .lineListClear => true
  | .edgeListClear => true
  | .vertexListClear => true
  | _ => false

/-- The calls `AddVert`, `AddLine` and `AddEdge`. -/
def Mutator.isAdd : Mutator C → Bool
  | .addVert _ => true
  | .addLine _ => true
  | .addEdge _ => true
  | _ => false

/-- The calls `AddLine`, `AddEdge`, `AddVert`, `AddCellNeighbor` and
`VoronoiRegionAddPointId`. -/
def Mutator.isGrow : Mutator C → Bool
  | .addLine _ => true
  | .addEdge _ => true
  | .addVert _ => true
  | .addCellNeighbor _ => true
  | .voronoiRegionAddPointId _ _ => true
  | _ => false

/-- The calls `VoronoiRegionAddPointId(i, v1)`, ..., `VoronoiRegionAddPointId(i, vk)`. -/
def addPointIdCalls (i : Int) (vs : List Int) : List (Mutator C) :=
  vs.map (fun v => Mutator.voronoiRegionAddPointId i v)

/-- The three collections that `AddVert`, `AddLine` and `AddEdge` write, and
that the size accessors and `GetVertex`, `GetLine`, `GetEdge` read, are the
same in two states. -/
def SameLists (s t : VoronoiDiagram2D C) : Prop :=
  s.m_PointsContainer = t.m_PointsContainer ∧ s.m_LineList = t.m_LineList ∧
    s.m_EdgeList = t.m_EdgeList

/-- A points container that holds `n` points, each `(0, 0)`, as `n` calls of
`AddVert` on an empty container store them. -/
def manyVertsContainer : Nat → PointsContainer Int
  | 0 => PointsContainer.New
  | n + 1 => (manyVertsContainer n).InsertElement (manyVertsContainer n).Size ⟨0, 0⟩

/-- A mesh that holds `n` vertices, each `(0, 0)`, and nothing else. -/
def manyVerts (n : Nat) : VoronoiDiagram2D Int :=
  { new ⟨0, 0⟩ with m_PointsContainer := some (manyVertsContainer n) }

/-- Modelled from the spec: the state after a call of `GetVertex`.  The call goes
to `ElementAt` of the points container, which is declared outside the sources;
the specification describes it as "indexed access", one of the "read-only
accessors", so the call leaves the mesh as it is. -/
def GetVertex_state (s : VoronoiDiagram2D C) (_id : Int) : VoronoiDiagram2D C := s

/-- The ranges of the stored ids: every stored edge has `m_LeftID` and `m_RightID`
in `[0, NumberOfSeeds)` and `m_LineID` in `[0, LineListSize())`, and every vertex
id stored in a region is in `[0, VertexListSize())`. -/
def IdsInRange (s : VoronoiDiagram2D C) : Prop :=
  (∀ e ∈ s.m_EdgeList,
    (0 ≤ e.m_LeftID ∧ e.m_LeftID < s.GetNumberOfSeeds) ∧
    (0 ≤ e.m_RightID ∧ e.m_RightID < s.GetNumberOfSeeds) ∧
    (0 ≤ e.m_LineID ∧ e.m_LineID < s.LineListSize)) ∧
  (∀ c ∈ s.m_VoronoiRegions, ∀ v ∈ c.m_PointIds,
    ∃ n, s.VertexListSize = .ok n ∧ 0 ≤ v ∧ v < n)

/-- The same ranges, measured on the containers themselves rather than through
the `int` that the size accessors report. -/
def IdsInBounds (s : VoronoiDiagram2D C) : Prop :=
  (∀ e ∈ s.m_EdgeList,
    (0 ≤ e.m_LeftID ∧ e.m_LeftID < s.GetNumberOfSeeds) ∧
    (0 ≤ e.m_RightID ∧ e.m_RightID < s.GetNumberOfSeeds) ∧
    (0 ≤ e.m_LineID ∧ e.m_LineID.toNat < s.m_LineList.length)) ∧
  (∀ c ∈ s.m_VoronoiRegions, ∀ v ∈ c.m_PointIds,
    ∃ p, s.m_PointsContainer = some p ∧ 0 ≤ v ∧ v.toNat < p.Size)

/-- What the builder has to see to for the ids to stay in range, call by call:
`AddEdge` is given seed ids in `[0, NumberOfSeeds)` and a line id in
`[0, LineListSize())`, `VoronoiRegionAddPointId` a vertex id in
`[0, VertexListSize())`, `LineListClear` is called when no edge is stored and
`VertexListClear` when no region holds a point id. -/
def Mutator.suppliesValidIds (s : VoronoiDiagram2D C) : Mutator C → Prop
  | .addEdge x =>
    (0 ≤ x.m_LeftID ∧ x.m_LeftID < s.GetNumberOfSeeds) ∧
    (0 ≤ x.m_RightID ∧ x.m_RightID < s.GetNumberOfSeeds) ∧
    (0 ≤ x.m_LineID ∧ x.m_LineID < s.LineListSize)
  | .voronoiRegionAddPointId _ x => ∃ n, s.VertexListSize = .ok n ∧ 0 ≤ x ∧ x < n
  | .lineListClear => s.m_EdgeList = []
  | .vertexListClear => ∀ c ∈ s.m_VoronoiRegions, c.m_PointIds = []
  | _ => True

/-- Every call of a sequence is made with valid ids, in the state it is made in. -/
def suppliesValidIdsAll (s : VoronoiDiagram2D C) : List (Mutator C) → Prop
  | [] => True
  | m :: ms => m.suppliesValidIds s ∧ ∀ s1, m.apply s = .ok s1 → suppliesValidIdsAll s1 ms

/-- The end of the scenario of the specification, with the vertex container
taken away (a null `m_PointsContainer`). -/
def scenarioNoContainer : VoronoiDiagram2D Int :=
  { scenarioBuilt with m_PointsContainer := none }

/-- The calls of the scenario of the specification, followed by the call that
puts vertex `0` on the boundary of the region of seed `0`. -/
def scenarioCallsRegion : List (Mutator Int) :=
  scenarioCalls ++ [.voronoiRegionAddPointId 0 0]

/-- The state after the calls `scenarioCallsRegion`. -/
def scenarioRegionZero : VoronoiDiagram2D Int :=
  { scenarioBuilt with m_VoronoiRegions := [⟨[0], []⟩, ⟨[], []⟩, ⟨[], []⟩] }

/-- What the calls `AddCellNeighbor((a_1, b_1))`, ..., `AddCellNeighbor((a_n, b_n))`,
scanned in order, put in the neighbour list of the seed `j`: `b_i` when `a_i = j`,
and then `a_i` when `b_i = j`. -/
def scanNeighbors (j : Int) (calls : List EdgeInfo) : List Int :=
  calls.flatMap (fun x => (if j = x.c0 then [x.c1] else []) ++ (if j = x.c1 then [x.c0] else []))

/-- The calls `AddCellNeighbor(x_1)`, ..., `AddCellNeighbor(x_n)`. -/
def addCellNeighborCalls (calls : List EdgeInfo) : List (Mutator C) :=
  calls.map (fun x => Mutator.addCellNeighbor x)

/-- The total length of all neighbour lists. -/
def totalNeighbors (s : VoronoiDiagram2D C) : Nat :=
  (s.m_CellNeighborsID.map List.length).sum

end VoronoiDiagram2D

/-! ## ImageFunction: the buffer test of `itkImageFunction.h` -/

/-- The type `Index<D>`: `D` components of the signed integer type `long`. -/
abbrev IndexType (D : Nat) := Fin D → Int

/-- The cached bounds of an `ImageFunction` over a `D`-dimensional image
(`itkImageFunction.h` lines 215-217). -/
structure ImageFunction (D : Nat) where
  m_StartIndex : IndexType D
  m_EndIndex : IndexType D

/-- The loop of `IsInsideBuffer(const IndexType &)` (`itkImageFunction.h` lines
134-139) over the dimensions that are still to be visited. -/
def ImageFunction.IsInsideBufferFrom {D : Nat} (f : ImageFunction D) (index : IndexType D) :
    List (Fin D) → Bool
  | [] => true
  | j :: js =>
    if index j < f.m_StartIndex j then false
    else if index j > f.m_EndIndex j then false
    else ImageFunction.IsInsideBufferFrom f index js

/-- The member `IsInsideBuffer(const IndexType &)` (`itkImageFunction.h` lines
132-140): the loop over `j = 0, ..., ImageDimension - 1`. -/
def ImageFunction.IsInsideBuffer {D : Nat} (f : ImageFunction D) (index : IndexType D) : Bool :=
  f.IsInsideBufferFrom index (List.finRange D)

/-! ## The test driver of `itkTestDriver.cxx` -/

namespace TestDriver

/-- What the driver takes from the platform: the two macros of
`itksys/SharedForward.h`, the C library calls `getenv` and `putenv` on the
process environment `Env`, and what `envList.push_back` does to that
environment.  `putenv` does not copy its argument: it keeps the pointer it is
handed, here `envList.back().c_str()`, so the strings of the environment live in
the vector `envList`.  A later `envList.push_back` may reallocate the vector and
move its strings, which leaves the pointers of the earlier `putenv` calls
dangling; `envList_push_back env v s` is the environment after `push_back(s)` on
the vector `v`, whatever the platform makes of it. -/
structure Platform (Env : Type) where
  KWSYS_SHARED_FORWARD_LDPATH : String
  KWSYS_SHARED_FORWARD_PATH_SEP : String
  getenv : Env → String → Option String
  envList_push_back : Env → List String → String → Env
  putenv : Env → String → Env

/-- The variables of `main` that the option loop writes (lines 304-308), and the
process environment. -/
structure ParseState (Env : Type) where
  args : List String
  compareList : List (String × String)
  envList : List String
  env : Env

/-- How the option loop ends: `main` returns from inside it with an exit code
(after `usage()`), or the loop runs to `i = ac`. -/
inductive ParseResult (Env : Type) where
  | returned (code : Int)
  | parsed (st : ParseState Env)

/-- What one turn of the option loop does: `main` returns with an exit code, or
the turn ends with `i += 1 + operands`, for an option that took `operands`
further arguments, with the flag `skip` and the variables as given. -/
inductive ParseStep (Env : Type) where
  | returned (code : Int)
  | next (skip : Bool) (operands : Nat) (st : ParseState Env)

/-- One turn of the option loop of `main` (lines 315-379), at the argument
`a = av[i]` with the arguments `rest = av[i + 1], ..., av[ac - 1]` after it.  In
the two `--add-before-` branches the new string is first pushed on `envList`,
which acts on the environment through the strings that it may move, and then
`putenv` is handed the last element of the vector. -/
def parseStep {Env : Type} (P : Platform Env) (skip : Bool) (a : String) (rest : List String)
    (st : ParseState Env) : ParseStep Env :=
  if skip = false ∧ a = "--add-before-libpath" then
    match rest with
    | [] => .returned 1
    | path :: _ =>
      let libpath := P.KWSYS_SHARED_FORWARD_LDPATH ++ "=" ++ path
      let libpath :=
        match P.getenv st.env P.KWSYS_SHARED_FORWARD_LDPATH with
        | some oldenv => libpath ++ P.KWSYS_SHARED_FORWARD_PATH_SEP ++ oldenv
        | none => libpath
      .next skip 1 { st with
        envList := st.envList ++ [libpath],
        env := P.putenv (P.envList_push_back st.env st.envList libpath) libpath }
  else if skip = false ∧ a = "--add-before-env" then
    match rest with
    | name :: value :: _ =>
      let env := name ++ "=" ++ value
      let env :=
        match P.getenv st.env name with
        | some oldenv => env ++ P.KWSYS_SHARED_FORWARD_PATH_SEP ++ oldenv
        | none => env
      .next skip 2 { st with
        envList := st.envList ++ [env],
        env := P.putenv (P.envList_push_back st.env st.envList env) env }
    | _ => .returned 1
  else if skip = false ∧ a = "--compare" then
    match rest with
    | test :: baseline :: _ =>
      .next skip 2 { st with compareList := st.compareList ++ [(test, baseline)] }
    | _ => .returned 1
  else if skip = false ∧ a = "--" then
    .next true 0 st
  else if skip = false ∧ a = "--help" then
    .returned 0
  else
    .next skip 0 { st with args := st.args ++ [a] }

/-- The option loop of `main` (lines 313-380) from the position `i` on: the
flag `skip`, the arguments `av[i], ..., av[ac - 1]`, the variables so far. -/
def parseLoop {Env : Type} (P : Platform Env) :
    Bool → List String → ParseState Env → ParseResult Env
  | _, [], st => .parsed st
  | skip, a :: rest, st =>
    match parseStep P skip a rest st with
    | .returned code => .returned code
    | .next skip1 operands st1 => parseLoop P skip1 (rest.drop operands) st1
termination_by _ av _ => av.length
decreasing_by
  simp only [List.length_drop, List.length_cons]
  omega

/-- The command-line parsing of `main` (lines 304-386): the loop from `i = 1`
with empty lists, then the exit with code `1` when no argument is left for the
test program. -/
def parseCommandLine {Env : Type} (P : Platform Env) (env : Env) (av : List String) :
    ParseResult Env :=
  match parseLoop P false (av.drop 1) ⟨[], [], [], env⟩ with
  | .returned code => .returned code
  | .parsed st => if st.args = [] then .returned 1 else .parsed st

/-- What the comparison of a test image with one baseline finds, as far as the
return value of `RegressionTestImage` goes (lines 86-262). -/
inductive Comparison where
  | baselineReadFails
  | testReadFails
  | sizesDiffer
  | compared (totalDifferenceNonzero : Bool)
  deriving DecidableEq, Repr

/-- The return value of `RegressionTestImage` (lines 104, 117, 133, 261). -/
def RegressionTestImage : Comparison → Int
  | .baselineReadFails => 1000
  | .testReadFails => 1000
  | .sizesDiffer => 1
  | .compared d => if d then 1 else 0

/-- The variables of the baseline loop of `main` (lines 418-421).  The map
`baselines` is split at the iterator `baseline`: the entries before it, and the
entries from it on; `baseline == baselines.end()` is `fromBaseline = []`. -/
structure BaselineSearch where
  beforeBaseline : List (String × Int)
  fromBaseline : List (String × Int)
  bestBaseline : String
  bestBaselineStatus : Int
  deriving DecidableEq, Repr

/-- The `while` loop of lines 422-437; `found` gives, for each baseline file,
what the comparison with the test image finds. -/
def baselineLoop (found : String → Comparison) :
    List (String × Int) → List (String × Int) → String → Int → BaselineSearch
  | before, [], bestBaseline, bestBaselineStatus =>
    ⟨before, [], bestBaseline, bestBaselineStatus⟩
  | before, (first, _) :: rest, bestBaseline, bestBaselineStatus =>
    let second := RegressionTestImage (found first)
    let bestBaseline1 := if second < bestBaselineStatus then first else bestBaseline
    let bestBaselineStatus1 := if second < bestBaselineStatus then second else bestBaselineStatus
    if second = 0 then
      ⟨before, (first, second) :: rest, bestBaseline1, bestBaselineStatus1⟩
    else
      baselineLoop found (before ++ [(first, second)]) rest bestBaseline1 bestBaselineStatus1

/-- The search for the best baseline (lines 419-437): the iterator starts at
`baselines.begin()`, `bestBaseline` empty, `bestBaselineStatus` at
`NumericTraits<int>::max()`. -/
def searchBaselines (found : String → Comparison) (baselines : List (String × Int)) :
    BaselineSearch :=
  baselineLoop found [] baselines "" (2 ^ 31 - 1)

/-- The error-image step (lines 438-444): when the best status is not zero, the
status of a second comparison with the best baseline is written through the
iterator `baseline`.  Writing through `baselines.end()` is undefined behaviour. -/
def errorImageStep (found : String → Comparison) (st : BaselineSearch) :
    Except Fault BaselineSearch :=
  if st.bestBaselineStatus ≠ 0 then
    match st.fromBaseline with
    | [] => .error .undefinedBehaviour
    | (first, _) :: rest =>
      .ok { st with fromBaseline := (first, RegressionTestImage (found st.bestBaseline)) :: rest }
  else .ok st

end TestDriver

/-! ## Indexing lemmas -/

theorem vectorAt_ok_iff {α : Type} (v : List α) (id : Int) (a : α) :
    vectorAt v id = .ok a ↔ 0 ≤ id ∧ v[id.toNat]? = some a := by
  unfold vectorAt
  by_cases h : 0 ≤ id
  · cases hv : v[id.toNat]? <;> simp [h]
  · simp [h]

theorem vectorAt_of_lt {α : Type} (v : List α) (id : Int) (h0 : 0 ≤ id)
    (h1 : id.toNat < v.length) : vectorAt v id = .ok v[id.toNat] := by
  rw [vectorAt_ok_iff]
  exact ⟨h0, List.getElem?_eq_getElem h1⟩

theorem vectorAt_ok_lt {α : Type} {v : List α} {id : Int} {a : α}
    (h : vectorAt v id = .ok a) : 0 ≤ id ∧ id.toNat < v.length := by
  rw [vectorAt_ok_iff] at h
  refine ⟨h.1, ?_⟩
  by_contra hc
  rw [List.getElem?_eq_none (Nat.le_of_not_lt hc)] at h
  exact Option.noConfusion h.2

theorem vectorUpdate_ok_iff {α : Type} (v v' : List α) (id : Int) (f : α → α) :
    vectorUpdate v id f = .ok v' ↔
      ∃ a, vectorAt v id = .ok a ∧ v' = v.set id.toNat (f a) := by
  unfold vectorUpdate
  cases h : vectorAt v id with
  | error e => simp
  | ok a =>
    simp only [Except.ok.injEq]
    constructor
    · intro h1
      exact ⟨a, rfl, h1.symm⟩
    · rintro ⟨b, hb, rfl⟩
      rw [hb]

theorem vectorUpdate_of_lt {α : Type} (v : List α) (id : Int) (f : α → α) (h0 : 0 ≤ id)
    (h1 : id.toNat < v.length) :
    vectorUpdate v id f = .ok (v.set id.toNat (f v[id.toNat])) := by
  rw [vectorUpdate_ok_iff]
  exact ⟨_, vectorAt_of_lt v id h0 h1, rfl⟩

theorem vectorUpdate_length {α : Type} {v v' : List α} {id : Int} {f : α → α}
    (h : vectorUpdate v id f = .ok v') : v'.length = v.length := by
  rw [vectorUpdate_ok_iff] at h
  obtain ⟨a, _, rfl⟩ := h
  simp

/-- Reading after an update in place: the updated slot holds the new value,
every other slot its old one, and the valid indices are the same. -/
theorem vectorAt_vectorUpdate {α : Type} {v v' : List α} {id : Int} {f : α → α}
    (h : vectorUpdate v id f = .ok v') (j : Int) :
    vectorAt v' j =
      match vectorAt v j with
      | .ok a => .ok (if j = id then f a else a)
      | .error e => .error e := by
  rw [vectorUpdate_ok_iff] at h
  obtain ⟨a, ha, rfl⟩ := h
  have hid := vectorAt_ok_lt ha
  rw [vectorAt_ok_iff] at ha
  unfold vectorAt
  by_cases hj : 0 ≤ j
  · simp only [hj, if_true, List.getElem?_set]
    by_cases hij : j = id
    · subst hij
      simp [hid.2, ha.2]
    · have : id.toNat ≠ j.toNat := by omega
      simp only [this, if_false, hij]
      cases v[j.toNat]? <;> rfl
  · simp [hj]

namespace VoronoiDiagram2D

variable {C : Type}

/-! ## Neighbour lists -/

theorem AddCellNeighbor_ok_iff (s s' : VoronoiDiagram2D C) (x : EdgeInfo) :
    s.AddCellNeighbor x = .ok s' ↔
      ∃ n0 n1, vectorUpdate s.m_CellNeighborsID x.c0 (fun l => l ++ [x.c1]) = .ok n0 ∧
        vectorUpdate n0 x.c1 (fun l => l ++ [x.c0]) = .ok n1 ∧
        s' = { s with m_CellNeighborsID := n1 } := by
  unfold AddCellNeighbor
  constructor
  · intro h
    split at h
    · exact Except.noConfusion h
    · rename_i n0 e0
      split at h
      · exact Except.noConfusion h
      · rename_i n1 e1
        injection h with h
        exact ⟨n0, n1, e0, e1, h.symm⟩
  · rintro ⟨n0, n1, e0, e1, rfl⟩
    simp only [e0, e1]

/-- A call of `AddCellNeighbor` with both ids inside the neighbour table goes
through. -/
theorem AddCellNeighbor_ok_of_valid (s : VoronoiDiagram2D C) (x : EdgeInfo)
    (h0 : 0 ≤ x.c0 ∧ x.c0.toNat < s.m_CellNeighborsID.length)
    (h1 : 0 ≤ x.c1 ∧ x.c1.toNat < s.m_CellNeighborsID.length) :
    ∃ s', s.AddCellNeighbor x = .ok s' := by
  have e0 := vectorUpdate_of_lt s.m_CellNeighborsID x.c0 (fun l => l ++ [x.c1]) h0.1 h0.2
  have hl := vectorUpdate_length e0
  have e1 := vectorUpdate_of_lt _ x.c1 (fun l => l ++ [x.c0]) h1.1 (hl ▸ h1.2)
  exact ⟨_, (AddCellNeighbor_ok_iff s _ x).2 ⟨_, _, e0, e1, rfl⟩⟩

/-- Every neighbour list after a call of `AddCellNeighbor` that went through. -/
theorem neighbors_AddCellNeighbor {s s' : VoronoiDiagram2D C} {x : EdgeInfo}
    (h : s.AddCellNeighbor x = .ok s') (j : Int) :
    s'.neighbors j =
      match s.neighbors j with
      | .ok l => .ok (neighborsAfter x j l)
      | .error e => .error e := by
  rw [AddCellNeighbor_ok_iff] at h
  obtain ⟨n0, n1, e0, e1, rfl⟩ := h
  unfold neighbors
  simp only
  rw [vectorAt_vectorUpdate e1 j, vectorAt_vectorUpdate e0 j]
  cases vectorAt s.m_CellNeighborsID j with
  | error e => rfl
  | ok l =>
    simp only [neighborsAfter]
    by_cases h0 : j = x.c0 <;> by_cases h1 : j = x.c1 <;> simp_all

theorem mem_neighborsAfter (x : EdgeInfo) (j b : Int) (l : List Int) :
    b ∈ neighborsAfter x j l ↔ b ∈ l ∨ (j = x.c0 ∧ b = x.c1) ∨ (j = x.c1 ∧ b = x.c0) := by
  unfold neighborsAfter
  by_cases h0 : j = x.c0 <;> by_cases h1 : j = x.c1 <;> simp_all

/-- C1. In a state whose neighbour table is allocated (one list per seed) and
for seed ids `a`, `b` in `[0, NumberOfSeeds)`, the call `AddCellNeighbor((a, b))`
goes through, and afterwards the neighbour list of `a` contains `b` and the
neighbour list of `b` contains `a`. -/
theorem AddCellNeighbor_records_both (s : VoronoiDiagram2D C) (a b : Int)
    (ha : 0 ≤ a ∧ a < s.GetNumberOfSeeds) (hb : 0 ≤ b ∧ b < s.GetNumberOfSeeds)
    (halloc : s.m_CellNeighborsID.length = s.m_NumberOfSeeds) :
    ∃ s' la lb, s.AddCellNeighbor ⟨a, b⟩ = .ok s' ∧
      s'.neighbors a = .ok la ∧ s'.neighbors b = .ok lb ∧ b ∈ la ∧ a ∈ lb := by
  unfold GetNumberOfSeeds at ha hb
  have ha' : a.toNat < s.m_CellNeighborsID.length := by omega
  have hb' : b.toNat < s.m_CellNeighborsID.length := by omega
  obtain ⟨s', hs'⟩ := AddCellNeighbor_ok_of_valid s ⟨a, b⟩ ⟨ha.1, ha'⟩ ⟨hb.1, hb'⟩
  have na := neighbors_AddCellNeighbor hs' a
  have nb := neighbors_AddCellNeighbor hs' b
  have oa : s.neighbors a = .ok s.m_CellNeighborsID[a.toNat] := vectorAt_of_lt _ a ha.1 ha'
  have ob : s.neighbors b = .ok s.m_CellNeighborsID[b.toNat] := vectorAt_of_lt _ b hb.1 hb'
  rw [oa] at na
  rw [ob] at nb
  refine ⟨s', _, _, hs', na, nb, ?_, ?_⟩
  · rw [mem_neighborsAfter]
    exact Or.inr (Or.inl ⟨rfl, rfl⟩)
  · rw [mem_neighborsAfter]
    exact Or.inr (Or.inr ⟨rfl, rfl⟩)

/-- An instance of C1: the pair `(0, 1)` in the scenario of the specification. -/
theorem AddCellNeighbor_records_both_witness :
    ∃ s' la lb, scenarioSeeded.AddCellNeighbor ⟨0, 1⟩ = .ok s' ∧
      s'.neighbors 0 = .ok la ∧ s'.neighbors 1 = .ok lb ∧ (1 : Int) ∈ la ∧ (0 : Int) ∈ lb :=
  AddCellNeighbor_records_both scenarioSeeded 0 1 (by decide) (by decide) (by decide)

/-! ## What each mutator leaves alone -/

theorem ClearRegion_ok_iff (s s' : VoronoiDiagram2D C) (i : Int) :
    s.ClearRegion i = .ok s' ↔
      ∃ r, vectorUpdate s.m_VoronoiRegions i PolygonCell.ClearPoints = .ok r ∧
        s' = { s with m_VoronoiRegions := r } := by
  unfold ClearRegion
  constructor
  · intro h
    split at h
    · exact Except.noConfusion h
    · rename_i r e
      injection h with h
      exact ⟨r, e, h.symm⟩
  · rintro ⟨r, e, rfl⟩
    simp only [e]

theorem VoronoiRegionAddPointId_ok_iff (s s' : VoronoiDiagram2D C) (id x : Int) :
    s.VoronoiRegionAddPointId id x = .ok s' ↔
      ∃ r, vectorUpdate s.m_VoronoiRegions id (fun c => c.AddPointId x) = .ok r ∧
        s' = { s with m_VoronoiRegions := r } := by
  unfold VoronoiRegionAddPointId
  constructor
  · intro h
    split at h
    · exact Except.noConfusion h
    · rename_i r e
      injection h with h
      exact ⟨r, e, h.symm⟩
  · rintro ⟨r, e, rfl⟩
    simp only [e]

theorem AddVert_ok_iff (s s' : VoronoiDiagram2D C) (x : PointType C) :
    s.AddVert x = .ok s' ↔
      ∃ p, s.m_PointsContainer = some p ∧
        s' = { s with m_PointsContainer := some (p.InsertElement p.Size x) } := by
  unfold AddVert
  constructor
  · intro h
    split at h
    · exact Except.noConfusion h
    · rename_i p e
      injection h with h
      exact ⟨p, e, h.symm⟩
  · rintro ⟨p, e, rfl⟩
    simp only [e]

/-- Only `AddCellNeighbor` writes the neighbour table. -/
theorem Mutator.apply_neighbors {s s' : VoronoiDiagram2D C} {m : Mutator C}
    (h : m.apply s = .ok s') :
    (∃ x, m = .addCellNeighbor x ∧ s.AddCellNeighbor x = .ok s') ∨
      s'.m_CellNeighborsID = s.m_CellNeighborsID := by
  cases m with
  | addCellNeighbor x => exact Or.inl ⟨x, rfl, h⟩
  | addLine x => injection h with h; subst h; exact Or.inr rfl
  | addEdge x => injection h with h; subst h; exact Or.inr rfl
  | addVert x =>
    obtain ⟨p, _, rfl⟩ := (AddVert_ok_iff s s' x).1 h
    exact Or.inr rfl
  | voronoiRegionAddPointId id x =>
    obtain ⟨r, _, rfl⟩ := (VoronoiRegionAddPointId_ok_iff s s' id x).1 h
    exact Or.inr rfl
  | clearRegion i =>
    obtain ⟨r, _, rfl⟩ := (ClearRegion_ok_iff s s' i).1 h
    exact Or.inr rfl
  | lineListClear => injection h with h; subst h; exact Or.inr rfl
  | edgeListClear => injection h with h; subst h; exact Or.inr rfl
  | vertexListClear => injection h with h; subst h; exact Or.inr rfl

/-- The call `AddCellNeighbor` keeps the neighbour adjacency symmetric. -/
theorem NeighborsSymmetric_AddCellNeighbor {s s' : VoronoiDiagram2D C} {x : EdgeInfo}
    (hs : s.NeighborsSymmetric) (h : s.AddCellNeighbor x = .ok s') : s'.NeighborsSymmetric := by
  intro a b la lb hla hlb
  rw [neighbors_AddCellNeighbor h a] at hla
  rw [neighbors_AddCellNeighbor h b] at hlb
  cases ha : s.neighbors a with
  | error e => rw [ha] at hla; exact Except.noConfusion hla
  | ok la0 =>
    cases hb : s.neighbors b with
    | error e => rw [hb] at hlb; exact Except.noConfusion hlb
    | ok lb0 =>
      rw [ha] at hla
      rw [hb] at hlb
      injection hla with hla
      injection hlb with hlb
      subst hla
      subst hlb
      have ih := hs a b la0 lb0 ha hb
      rw [mem_neighborsAfter, mem_neighborsAfter, ih]
      tauto

theorem NeighborsSymmetric_apply {s s' : VoronoiDiagram2D C} {m : Mutator C}
    (hs : s.NeighborsSymmetric) (h : m.apply s = .ok s') : s'.NeighborsSymmetric := by
  rcases Mutator.apply_neighbors h with ⟨x, _, hx⟩ | heq
  · exact NeighborsSymmetric_AddCellNeighbor hs hx
  · intro a b la lb hla hlb
    unfold neighbors at hla hlb
    rw [heq] at hla hlb
    exact hs a b la lb hla hlb

theorem NeighborsSymmetric_run (ms : List (Mutator C)) :
    ∀ {s s' : VoronoiDiagram2D C}, s.NeighborsSymmetric → run s ms = .ok s' →
      s'.NeighborsSymmetric := by
  induction ms with
  | nil =>
    intro s s' hs h
    injection h with h
    exact h ▸ hs
  | cons m ms ih =>
    intro s s' hs h
    unfold run at h
    split at h
    · exact Except.noConfusion h
    · rename_i s1 e
      exact ih (NeighborsSymmetric_apply hs e) h

theorem NeighborsSymmetric_of_empty {s : VoronoiDiagram2D C}
    (h : ∀ l ∈ s.m_CellNeighborsID, l = []) : s.NeighborsSymmetric := by
  intro a b la lb hla hlb
  have ea : la = [] :=
    h la (List.getElem?_mem ((vectorAt_ok_iff _ _ _).1 hla).2)
  have eb : lb = [] :=
    h lb (List.getElem?_mem ((vectorAt_ok_iff _ _ _).1 hlb).2)
  subst ea
  subst eb
  simp

/-- C2. In every state reached from a mesh whose neighbour lists are all empty
by a sequence of mutator calls (`AddCellNeighbor`, `AddLine`, `AddEdge`,
`AddVert`, `VoronoiRegionAddPointId`, `ClearRegion`, `LineListClear`,
`EdgeListClear`, `VertexListClear`), for all seed ids `a` and `b`: `b` is in the
neighbour list of `a` if and only if `a` is in the neighbour list of `b`. -/
theorem neighbors_symmetric_reachable (s0 s : VoronoiDiagram2D C) (ms : List (Mutator C))
    (hempty : ∀ l ∈ s0.m_CellNeighborsID, l = []) (hrun : run s0 ms = .ok s)
    (a b : Int) (la lb : List Int) (ha : s.neighbors a = .ok la) (hb : s.neighbors b = .ok lb) :
    b ∈ la ↔ a ∈ lb :=
  NeighborsSymmetric_run ms (NeighborsSymmetric_of_empty hempty) hrun a b la lb ha hb

/-- An instance of C2: after `AddCellNeighbor((0, 1))` and `AddLine((0, 1))` in the
scenario of the specification, `1` is a neighbour of `0` and `0` one of `1`. -/
theorem neighbors_symmetric_reachable_witness :
    (∀ l ∈ scenarioSeeded.m_CellNeighborsID, l = []) ∧
      run scenarioSeeded [.addCellNeighbor ⟨0, 1⟩, .addLine ⟨0, 1⟩]
        = .ok (scenarioNeighbors.AddLine ⟨0, 1⟩) ∧
      ((1 : Int) ∈ [(1 : Int)] ↔ (0 : Int) ∈ [(0 : Int)]) :=
  ⟨by decide, rfl,
    neighbors_symmetric_reachable scenarioSeeded (scenarioNeighbors.AddLine ⟨0, 1⟩)
      [.addCellNeighbor ⟨0, 1⟩, .addLine ⟨0, 1⟩] (by decide) rfl 0 1 [1] [0] rfl rfl⟩

/-! ## Sizes and the 32-bit `int` -/

theorem static_cast_int_of_lt {n : Nat} (h : n < 2 ^ 31) : static_cast_int n = n := by
  unfold static_cast_int
  have h1 : n % 2 ^ 32 = n := Nat.mod_eq_of_lt (by omega)
  rw [h1, if_pos h]

theorem static_cast_int_le (n : Nat) : static_cast_int n ≤ n := by
  unfold static_cast_int
  have h1 : n % 2 ^ 32 ≤ n := Nat.mod_le _ _
  split <;> omega

/-- An index below the reported size is a valid index of the vector. -/
theorem toNat_lt_of_lt_static_cast_int {id : Int} {n : Nat} (h : id < static_cast_int n) :
    id.toNat < n ∨ id < 0 := by
  have := static_cast_int_le n
  omega

theorem vectorAt_concat_length {α : Type} (v : List α) (a : α) :
    vectorAt (v ++ [a]) (v.length : Int) = .ok a := by
  rw [vectorAt_ok_iff]
  exact ⟨Int.ofNat_nonneg _, by simp⟩

theorem vectorAt_append_of_ok {α : Type} {v : List α} {id : Int} {a : α} (w : List α)
    (h : vectorAt v id = .ok a) : vectorAt (v ++ w) id = .ok a := by
  have hl := vectorAt_ok_lt h
  rw [vectorAt_ok_iff] at h ⊢
  exact ⟨h.1, by rw [List.getElem?_append_left hl.2]; exact h.2⟩

theorem LineListSize_manyLines (n : Nat) : (manyLines n).LineListSize = static_cast_int n := by
  simp [manyLines, LineListSize]

theorem GetLine_manyLines_AddLine (n : Nat) (h : 0 < n) (x : EdgeInfo) :
    ((manyLines n).AddLine x).GetLine 0 = .ok ⟨0, 0⟩ := by
  unfold GetLine
  rw [vectorAt_ok_iff]
  refine ⟨le_refl _, ?_⟩
  show (List.replicate n (⟨0, 0⟩ : EdgeInfo) ++ [x])[0]? = some ⟨0, 0⟩
  rw [List.getElem?_append_left (by simpa using h), List.getElem?_replicate, if_pos h]

/-- C3, as stated, fails once a list holds `2^32` entries: `LineListSize()` then
reports `0`, and after `AddLine((1, 1))` the call `GetLine(0)` gives the first
line `(0, 0)`, not the line just appended. -/
theorem GetLine_after_AddLine_wraps :
    (manyLines (2 ^ 32)).LineListSize = 0 ∧
      ((manyLines (2 ^ 32)).AddLine ⟨1, 1⟩).GetLine (manyLines (2 ^ 32)).LineListSize
        = .ok ⟨0, 0⟩ ∧
      ((manyLines (2 ^ 32)).AddLine ⟨1, 1⟩).GetLine (manyLines (2 ^ 32)).LineListSize
        ≠ .ok ⟨1, 1⟩ := by
  have h0 : (manyLines (2 ^ 32)).LineListSize = 0 := by
    rw [LineListSize_manyLines]
    decide
  rw [h0, GetLine_manyLines_AddLine (2 ^ 32) (by decide) ⟨1, 1⟩]
  exact ⟨rfl, rfl, by decide⟩

theorem GetVertex_AddVert {s : VoronoiDiagram2D C} {c : PointsContainer C} (p : PointType C)
    (hc : s.m_PointsContainer = some c) (hv : c.Size < 2 ^ 31) :
    ∃ n s', s.VertexListSize = .ok n ∧ s.AddVert p = .ok s' ∧ s'.GetVertex n = .ok p := by
  refine ⟨static_cast_int c.Size, _, ?_, (AddVert_ok_iff s _ p).2 ⟨c, hc, rfl⟩, ?_⟩
  · unfold VertexListSize
    rw [hc]
  · rw [static_cast_int_of_lt hv]
    have hk : ((c.Size : Int) % 2 ^ 64).toNat = c.Size := by omega
    simp only [GetVertex, PointsContainer.ElementAt, PointsContainer.InsertElement]
    rw [hk, AList.lookup_insert]

/-- C3 (amended). An append is read back at the prior size, for a collection of
fewer than `2^31` entries: after `AddLine(x)`, `GetLine(n) = x` with `n` the
prior `LineListSize()`; after `AddEdge(e)`, `GetEdge(n) = e` (all five fields)
with `n` the prior `EdgeListSize()`; and, the vertex container existing, after
`AddVert(p)`, `GetVertex(n) = p` with `n` the prior `VertexListSize()`. -/
theorem append_read_back (s : VoronoiDiagram2D C) :
    (∀ x, s.m_LineList.length < 2 ^ 31 → (s.AddLine x).GetLine s.LineListSize = .ok x) ∧
    (∀ e, s.m_EdgeList.length < 2 ^ 31 → (s.AddEdge e).GetEdge s.EdgeListSize = .ok e) ∧
    (∀ p c, s.m_PointsContainer = some c → c.Size < 2 ^ 31 →
      ∃ n s', s.VertexListSize = .ok n ∧ s.AddVert p = .ok s' ∧ s'.GetVertex n = .ok p) := by
  refine ⟨?_, ?_, ?_⟩
  · intro x h
    unfold LineListSize GetLine AddLine
    rw [static_cast_int_of_lt h]
    exact vectorAt_concat_length _ _
  · intro e h
    unfold EdgeListSize GetEdge AddEdge
    rw [static_cast_int_of_lt h]
    exact vectorAt_concat_length _ _
  · intro p c hc hv
    exact GetVertex_AddVert p hc hv

/-- An instance of C3 (amended): the three appends of the scenario of the
specification, each read back at the prior size `0`. -/
theorem append_read_back_witness :
    (scenarioSeeded.AddLine ⟨0, 1⟩).GetLine scenarioSeeded.LineListSize = .ok ⟨0, 1⟩ ∧
    (scenarioSeeded.AddEdge ⟨⟨5, 3⟩, ⟨5, 3⟩, 0, 1, 0⟩).GetEdge scenarioSeeded.EdgeListSize
      = .ok ⟨⟨5, 3⟩, ⟨5, 3⟩, 0, 1, 0⟩ ∧
    (∃ n s', scenarioSeeded.VertexListSize = .ok n ∧ scenarioSeeded.AddVert ⟨5, 3⟩ = .ok s' ∧
      s'.GetVertex n = .ok ⟨5, 3⟩) :=
  ⟨(append_read_back scenarioSeeded).1 ⟨0, 1⟩ (by decide),
    (append_read_back scenarioSeeded).2.1 ⟨⟨5, 3⟩, ⟨5, 3⟩, 0, 1, 0⟩ (by decide),
    (append_read_back scenarioSeeded).2.2 ⟨5, 3⟩ PointsContainer.New rfl (by decide)⟩

/-! ## Counting appends -/

theorem Mutator.apply_lineList {s s' : VoronoiDiagram2D C} {m : Mutator C}
    (h : m.apply s = .ok s') : s'.m_LineList.length = lineCount s.m_LineList.length m := by
  cases m with
  | addCellNeighbor x =>
    obtain ⟨n0, n1, _, _, rfl⟩ := (AddCellNeighbor_ok_iff s s' x).1 h
    rfl
  | addLine x => injection h with h; subst h; simp [AddLine, lineCount]
  | addEdge x => injection h with h; subst h; rfl
  | addVert x =>
    obtain ⟨p, _, rfl⟩ := (AddVert_ok_iff s s' x).1 h
    rfl
  | voronoiRegionAddPointId id x =>
    obtain ⟨r, _, rfl⟩ := (VoronoiRegionAddPointId_ok_iff s s' id x).1 h
    rfl
  | clearRegion i =>
    obtain ⟨r, _, rfl⟩ := (ClearRegion_ok_iff s s' i).1 h
    rfl
  | lineListClear => injection h with h; subst h; rfl
  | edgeListClear => injection h with h; subst h; rfl
  | vertexListClear => injection h with h; subst h; rfl

theorem Mutator.apply_edgeList {s s' : VoronoiDiagram2D C} {m : Mutator C}
    (h : m.apply s = .ok s') : s'.m_EdgeList.length = edgeCount s.m_EdgeList.length m := by
  cases m with
  | addCellNeighbor x =>
    obtain ⟨n0, n1, _, _, rfl⟩ := (AddCellNeighbor_ok_iff s s' x).1 h
    rfl
  | addLine x => injection h with h; subst h; rfl
  | addEdge x => injection h with h; subst h; simp [AddEdge, edgeCount]
  | addVert x =>
    obtain ⟨p, _, rfl⟩ := (AddVert_ok_iff s s' x).1 h
    rfl
  | voronoiRegionAddPointId id x =>
    obtain ⟨r, _, rfl⟩ := (VoronoiRegionAddPointId_ok_iff s s' id x).1 h
    rfl
  | clearRegion i =>
    obtain ⟨r, _, rfl⟩ := (ClearRegion_ok_iff s s' i).1 h
    rfl
  | lineListClear => injection h with h; subst h; rfl
  | edgeListClear => injection h with h; subst h; rfl
  | vertexListClear => injection h with h; subst h; rfl

theorem PointsDense_of_Size_eq_zero {c : PointsContainer C} (h : c.Size = 0) : PointsDense c := by
  intro k
  have hk : c.m_Map.keys = [] := List.eq_nil_of_length_eq_zero h
  rw [hk, h]
  simp

/-- In a container whose identifiers are `0, ..., Size() - 1`, the insertion
under `Size()` stores a new element: the size grows by one and the identifiers
stay dense. -/
theorem PointsDense_InsertElement {c : PointsContainer C} (h : PointsDense c) (x : PointType C) :
    PointsDense (c.InsertElement c.Size x) ∧ (c.InsertElement c.Size x).Size = c.Size + 1 := by
  have hnot : c.Size ∉ c.m_Map.keys := fun hm => Nat.lt_irrefl _ ((h _).1 hm)
  have hkeys : (c.InsertElement c.Size x).m_Map.keys = c.Size :: c.m_Map.keys := by
    simp only [PointsContainer.InsertElement, AList.keys_insert]
    rw [List.erase_of_not_mem hnot]
  have hsize : (c.InsertElement c.Size x).Size = c.Size + 1 := by
    unfold PointsContainer.Size at hkeys ⊢
    rw [hkeys, List.length_cons]
  refine ⟨?_, hsize⟩
  intro k
  rw [hsize, hkeys, List.mem_cons, h k]
  omega

theorem Mutator.apply_points {s s' : VoronoiDiagram2D C} {m : Mutator C} {c : PointsContainer C}
    (h : m.apply s = .ok s') (hc : s.m_PointsContainer = some c) (hd : PointsDense c) :
    ∃ c', s'.m_PointsContainer = some c' ∧ PointsDense c' ∧ c'.Size = vertCount c.Size m := by
  cases m with
  | addCellNeighbor x =>
    obtain ⟨n0, n1, _, _, rfl⟩ := (AddCellNeighbor_ok_iff s s' x).1 h
    exact ⟨c, hc, hd, rfl⟩
  | addLine x => injection h with h; subst h; exact ⟨c, hc, hd, rfl⟩
  | addEdge x => injection h with h; subst h; exact ⟨c, hc, hd, rfl⟩
  | addVert x =>
    obtain ⟨p, hp, rfl⟩ := (AddVert_ok_iff s s' x).1 h
    rw [hc] at hp
    injection hp with hp
    subst hp
    exact ⟨_, rfl, (PointsDense_InsertElement hd x).1, (PointsDense_InsertElement hd x).2⟩
  | voronoiRegionAddPointId id x =>
    obtain ⟨r, _, rfl⟩ := (VoronoiRegionAddPointId_ok_iff s s' id x).1 h
    exact ⟨c, hc, hd, rfl⟩
  | clearRegion i =>
    obtain ⟨r, _, rfl⟩ := (ClearRegion_ok_iff s s' i).1 h
    exact ⟨c, hc, hd, rfl⟩
  | lineListClear => injection h with h; subst h; exact ⟨c, hc, hd, rfl⟩
  | edgeListClear => injection h with h; subst h; exact ⟨c, hc, hd, rfl⟩
  | vertexListClear =>
    injection h with h
    subst h
    exact ⟨_, rfl, PointsDense_of_Size_eq_zero rfl, rfl⟩

theorem run_cons_ok {s s' : VoronoiDiagram2D C} {m : Mutator C} {ms : List (Mutator C)}
    (h : run s (m :: ms) = .ok s') : ∃ s1, m.apply s = .ok s1 ∧ run s1 ms = .ok s' := by
  unfold run at h
  split at h
  · exact Except.noConfusion h
  · rename_i s1 e
    exact ⟨s1, e, h⟩

theorem run_lineList (ms : List (Mutator C)) :
    ∀ {s s' : VoronoiDiagram2D C}, run s ms = .ok s' →
      s'.m_LineList.length = ms.foldl lineCount s.m_LineList.length := by
  induction ms with
  | nil => intro s s' h; injection h with h; subst h; rfl
  | cons m ms ih =>
    intro s s' h
    obtain ⟨s1, e, h1⟩ := run_cons_ok h
    rw [ih h1, Mutator.apply_lineList e, List.foldl_cons]

theorem run_edgeList (ms : List (Mutator C)) :
    ∀ {s s' : VoronoiDiagram2D C}, run s ms = .ok s' →
      s'.m_EdgeList.length = ms.foldl edgeCount s.m_EdgeList.length := by
  induction ms with
  | nil => intro s s' h; injection h with h; subst h; rfl
  | cons m ms ih =>
    intro s s' h
    obtain ⟨s1, e, h1⟩ := run_cons_ok h
    rw [ih h1, Mutator.apply_edgeList e, List.foldl_cons]

theorem run_points (ms : List (Mutator C)) :
    ∀ {s s' : VoronoiDiagram2D C} {c : PointsContainer C}, run s ms = .ok s' →
      s.m_PointsContainer = some c → PointsDense c →
      ∃ c', s'.m_PointsContainer = some c' ∧ PointsDense c' ∧
        c'.Size = ms.foldl vertCount c.Size := by
  induction ms with
  | nil => intro s s' c h hc hd; injection h with h; subst h; exact ⟨c, hc, hd, rfl⟩
  | cons m ms ih =>
    intro s s' c h hc hd
    obtain ⟨s1, e, h1⟩ := run_cons_ok h
    obtain ⟨c1, hc1, hd1, hs1⟩ := Mutator.apply_points e hc hd
    obtain ⟨c', hc', hd', hs'⟩ := ih h1 hc1 hd1
    exact ⟨c', hc', hd', by rw [hs', hs1, List.foldl_cons]⟩

theorem AddLine_manyLines (k : Nat) : (manyLines k).AddLine ⟨0, 0⟩ = manyLines (k + 1) := by
  unfold manyLines AddLine
  simp only [List.replicate_succ']

theorem run_replicate_addLine (n : Nat) :
    ∀ k, run (manyLines k) (List.replicate n (.addLine ⟨0, 0⟩)) = .ok (manyLines (k + n)) := by
  induction n with
  | zero => intro k; rfl
  | succ n ih =>
    intro k
    rw [List.replicate_succ]
    show run ((manyLines k).AddLine ⟨0, 0⟩) (List.replicate n (.addLine ⟨0, 0⟩)) = _
    rw [AddLine_manyLines, ih (k + 1)]
    congr 2
    omega

theorem foldl_lineCount_replicate (x : EdgeInfo) (n : Nat) :
    ∀ k, (List.replicate n (Mutator.addLine x : Mutator C)).foldl lineCount k = k + n := by
  induction n with
  | zero => intro k; rfl
  | succ n ih =>
    intro k
    rw [List.replicate_succ, List.foldl_cons, ih]
    show k + 1 + n = k + (n + 1)
    omega

/-- C4, as stated, fails at the `2^31`-th append: after `2^31` calls of `AddLine`
on a new mesh (and no clear) `LineListSize()` is `-2^31`, not the number of
calls. -/
theorem sizes_count_wraps :
    run (new ⟨0, 0⟩) (List.replicate (2 ^ 31) (.addLine ⟨0, 0⟩)) = .ok (manyLines (2 ^ 31)) ∧
      linesSinceClear (List.replicate (2 ^ 31) (Mutator.addLine ⟨0, 0⟩ : Mutator Int)) = 2 ^ 31 ∧
      (manyLines (2 ^ 31)).LineListSize = -2 ^ 31 := by
  refine ⟨?_, ?_, ?_⟩
  · have h := run_replicate_addLine (2 ^ 31) 0
    rw [Nat.zero_add] at h
    exact h
  · unfold linesSinceClear
    rw [foldl_lineCount_replicate, Nat.zero_add]
  · rw [LineListSize_manyLines]
    decide

/-- C4 (amended). In the state reached from a mesh with an empty line list, an
empty edge list and an existing, empty vertex container by any sequence of
mutator calls, `LineListSize()`, `EdgeListSize()` and `VertexListSize()` equal the
numbers of `AddLine`, `AddEdge` and `AddVert` calls made since the last
`LineListClear`, `EdgeListClear` and `VertexListClear` (or since the beginning),
each as long as that number is below `2^31`; and there every append increases its
own list's size by one, as long as the number of entries stays below `2^31`, and
leaves the other two sizes unchanged. -/
theorem sizes_count_appends (s0 s : VoronoiDiagram2D C) (c0 : PointsContainer C)
    (ms : List (Mutator C)) (hl : s0.m_LineList = []) (he : s0.m_EdgeList = [])
    (hv : s0.m_PointsContainer = some c0) (hv0 : c0.Size = 0) (hrun : run s0 ms = .ok s) :
    (linesSinceClear ms < 2 ^ 31 → s.LineListSize = linesSinceClear ms) ∧
    (edgesSinceClear ms < 2 ^ 31 → s.EdgeListSize = edgesSinceClear ms) ∧
    (vertsSinceClear ms < 2 ^ 31 → s.VertexListSize = .ok (vertsSinceClear ms : Int)) ∧
    (∀ x, (linesSinceClear ms + 1 < 2 ^ 31 → (s.AddLine x).LineListSize = s.LineListSize + 1) ∧
      (s.AddLine x).EdgeListSize = s.EdgeListSize ∧
      (s.AddLine x).VertexListSize = s.VertexListSize) ∧
    (∀ e, (edgesSinceClear ms + 1 < 2 ^ 31 → (s.AddEdge e).EdgeListSize = s.EdgeListSize + 1) ∧
      (s.AddEdge e).LineListSize = s.LineListSize ∧
      (s.AddEdge e).VertexListSize = s.VertexListSize) ∧
    (∀ p, ∃ s' n, s.AddVert p = .ok s' ∧ s.VertexListSize = .ok n ∧
      (vertsSinceClear ms + 1 < 2 ^ 31 → s'.VertexListSize = .ok (n + 1)) ∧
      s'.LineListSize = s.LineListSize ∧ s'.EdgeListSize = s.EdgeListSize) := by
  have hL : s.m_LineList.length = linesSinceClear ms := by
    rw [run_lineList ms hrun, hl]
    rfl
  have hE : s.m_EdgeList.length = edgesSinceClear ms := by
    rw [run_edgeList ms hrun, he]
    rfl
  obtain ⟨c, hc, hd, hV⟩ := run_points ms hrun hv (PointsDense_of_Size_eq_zero hv0)
  rw [hv0] at hV
  change c.Size = vertsSinceClear ms at hV
  refine ⟨?_, ?_, ?_, ?_, ?_, ?_⟩
  · intro h
    unfold LineListSize
    rw [hL, static_cast_int_of_lt h]
  · intro h
    unfold EdgeListSize
    rw [hE, static_cast_int_of_lt h]
  · intro h
    unfold VertexListSize
    rw [hc]
    simp only [hV, static_cast_int_of_lt h]
  · intro x
    refine ⟨?_, rfl, rfl⟩
    intro h
    unfold LineListSize AddLine
    simp only [List.length_append, List.length_singleton, hL]
    rw [static_cast_int_of_lt h, static_cast_int_of_lt (by omega)]
    push_cast
    rfl
  · intro e
    refine ⟨?_, rfl, rfl⟩
    intro h
    unfold EdgeListSize AddEdge
    simp only [List.length_append, List.length_singleton, hE]
    rw [static_cast_int_of_lt h, static_cast_int_of_lt (by omega)]
    push_cast
    rfl
  · intro p
    refine ⟨_, static_cast_int c.Size, (AddVert_ok_iff s _ p).2 ⟨c, hc, rfl⟩, ?_, ?_, rfl, rfl⟩
    · unfold VertexListSize
      rw [hc]
    · intro h
      show Except.ok (static_cast_int (c.InsertElement c.Size p).Size) = _
      rw [(PointsDense_InsertElement hd p).2, hV]
      rw [static_cast_int_of_lt h, static_cast_int_of_lt (by omega)]
      push_cast
      rfl

/-- An instance of C4 (amended): the scenario of the specification, one
`AddVert`, one `AddLine` and one `AddEdge` on a new mesh, leaves each size `1`. -/
theorem sizes_count_appends_witness :
    run scenarioSeeded scenarioCalls = .ok scenarioBuilt ∧
      scenarioBuilt.LineListSize = 1 ∧ scenarioBuilt.EdgeListSize = 1 ∧
      scenarioBuilt.VertexListSize = .ok 1 :=
  ⟨rfl,
    (sizes_count_appends scenarioSeeded scenarioBuilt PointsContainer.New scenarioCalls
      rfl rfl rfl rfl rfl).1 (by decide),
    (sizes_count_appends scenarioSeeded scenarioBuilt PointsContainer.New scenarioCalls
      rfl rfl rfl rfl rfl).2.1 (by decide),
    (sizes_count_appends scenarioSeeded scenarioBuilt PointsContainer.New scenarioCalls
      rfl rfl rfl rfl rfl).2.2.1 (by decide)⟩

/-! ## The ids of appended elements -/

/-- C5, as stated, fails: `AddVert`, `AddLine` and `AddEdge` are declared `void`
and hand no id back, so the first call on an empty collection does not return
`0`. -/
theorem append_returns_no_id :
    (new ⟨0, 0⟩ : VoronoiDiagram2D Int).AddVert_returned ⟨5, 3⟩ ≠ some 0 ∧
      (new ⟨0, 0⟩ : VoronoiDiagram2D Int).AddLine_returned ⟨0, 1⟩ ≠ some 0 ∧
      (new ⟨0, 0⟩ : VoronoiDiagram2D Int).AddEdge_returned ⟨⟨5, 3⟩, ⟨5, 3⟩, 0, 1, 0⟩ ≠ some 0 := by
  decide

/-- C5 (amended). `AddVert`, `AddLine` and `AddEdge` return no value; each stores
the element it appends under the id equal to the size of that collection before
the call, so two successive calls store under the ids `n` and `n + 1` (strictly
increasing), and for an empty collection `n = 0`.  For vertices this is in a
state whose container exists and holds the ids `0, ..., Size() - 1`. -/
theorem append_ids (s : VoronoiDiagram2D C) :
    (∀ x y, s.AddLine_returned x = none ∧
      (s.AddLine x).m_LineList[s.m_LineList.length]? = some x ∧
      ((s.AddLine x).AddLine y).m_LineList[s.m_LineList.length]? = some x ∧
      ((s.AddLine x).AddLine y).m_LineList[s.m_LineList.length + 1]? = some y) ∧
    (∀ x y, s.AddEdge_returned x = none ∧
      (s.AddEdge x).m_EdgeList[s.m_EdgeList.length]? = some x ∧
      ((s.AddEdge x).AddEdge y).m_EdgeList[s.m_EdgeList.length]? = some x ∧
      ((s.AddEdge x).AddEdge y).m_EdgeList[s.m_EdgeList.length + 1]? = some y) ∧
    (∀ c x y, s.m_PointsContainer = some c → PointsDense c →
      s.AddVert_returned x = none ∧
      ∃ s1 c1 s2 c2, s.AddVert x = .ok s1 ∧ s1.m_PointsContainer = some c1 ∧
        c1.ElementAt c.Size = .ok x ∧
        s1.AddVert y = .ok s2 ∧ s2.m_PointsContainer = some c2 ∧
        c2.ElementAt c.Size = .ok x ∧ c2.ElementAt (c.Size + 1) = .ok y) := by
  refine ⟨?_, ?_, ?_⟩
  · intro x y
    refine ⟨rfl, ?_, ?_, ?_⟩
    · simp [AddLine]
    · show ((s.m_LineList ++ [x]) ++ [y])[s.m_LineList.length]? = some x
      rw [List.getElem?_append_left (by simp), List.getElem?_concat_length]
    · simp only [AddLine]
      have h := List.getElem?_concat_length (s.m_LineList ++ [x]) y
      simpa using h
  · intro x y
    refine ⟨rfl, ?_, ?_, ?_⟩
    · simp [AddEdge]
    · show ((s.m_EdgeList ++ [x]) ++ [y])[s.m_EdgeList.length]? = some x
      rw [List.getElem?_append_left (by simp), List.getElem?_concat_length]
    · simp only [AddEdge]
      have h := List.getElem?_concat_length (s.m_EdgeList ++ [x]) y
      simpa using h
  · intro c x y hc hd
    refine ⟨rfl, _, _, _, _, (AddVert_ok_iff s _ x).2 ⟨c, hc, rfl⟩, rfl, ?_,
      (AddVert_ok_iff _ _ y).2 ⟨_, rfl, rfl⟩, rfl, ?_, ?_⟩
    · simp only [PointsContainer.ElementAt, PointsContainer.InsertElement, AList.lookup_insert]
    · rw [(PointsDense_InsertElement hd x).2]
      have hne : c.Size ≠ c.Size + 1 := by omega
      simp only [PointsContainer.ElementAt, PointsContainer.InsertElement,
        AList.lookup_insert_ne hne, AList.lookup_insert]
    · rw [(PointsDense_InsertElement hd x).2]
      simp only [PointsContainer.ElementAt, PointsContainer.InsertElement, AList.lookup_insert]

/-- An instance of C5 (amended): on a new mesh, whose vertex container is empty,
two successive `AddVert` calls store under the ids `0` and `1`. -/
theorem append_ids_witness :
    PointsDense (PointsContainer.New : PointsContainer Int) ∧
      ∃ s1 c1 s2 c2, (new ⟨0, 0⟩ : VoronoiDiagram2D Int).AddVert ⟨5, 3⟩ = .ok s1 ∧
        s1.m_PointsContainer = some c1 ∧ c1.ElementAt 0 = .ok ⟨5, 3⟩ ∧
        s1.AddVert ⟨7, 7⟩ = .ok s2 ∧ s2.m_PointsContainer = some c2 ∧
        c2.ElementAt 0 = .ok ⟨5, 3⟩ ∧ c2.ElementAt 1 = .ok ⟨7, 7⟩ :=
  ⟨PointsDense_of_Size_eq_zero rfl,
    ((append_ids (new ⟨0, 0⟩ : VoronoiDiagram2D Int)).2.2 PointsContainer.New ⟨5, 3⟩ ⟨7, 7⟩ rfl
      (PointsDense_of_Size_eq_zero rfl)).2⟩

/-! ## Edges and their lines -/

theorem GetEdgeLineID_ok_iff (s : VoronoiDiagram2D C) (id L : Int) :
    s.GetEdgeLineID id = .ok L ↔ ∃ e, vectorAt s.m_EdgeList id = .ok e ∧ e.m_LineID = L := by
  unfold GetEdgeLineID
  cases h : vectorAt s.m_EdgeList id with
  | error e => simp
  | ok e => simp

/-- The calls `AddEdge`, `AddLine`, `AddVert` and `AddCellNeighbor` only append to
the edge list. -/
theorem Mutator.apply_edgeList_append {s s' : VoronoiDiagram2D C} {m : Mutator C}
    (h : m.apply s = .ok s') (hm : m.isAppend = true) :
    ∃ w, s'.m_EdgeList = s.m_EdgeList ++ w := by
  cases m with
  | addCellNeighbor x =>
    obtain ⟨n0, n1, _, _, rfl⟩ := (AddCellNeighbor_ok_iff s s' x).1 h
    exact ⟨[], (List.append_nil _).symm⟩
  | addLine x => injection h with h; subst h; exact ⟨[], (List.append_nil _).symm⟩
  | addEdge x => injection h with h; subst h; exact ⟨[x], rfl⟩
  | addVert x =>
    obtain ⟨p, _, rfl⟩ := (AddVert_ok_iff s s' x).1 h
    exact ⟨[], (List.append_nil _).symm⟩
  | voronoiRegionAddPointId id x => exact Bool.noConfusion hm
  | clearRegion i => exact Bool.noConfusion hm
  | lineListClear => exact Bool.noConfusion hm
  | edgeListClear => exact Bool.noConfusion hm
  | vertexListClear => exact Bool.noConfusion hm

theorem run_edgeList_append (ms : List (Mutator C)) :
    ∀ {s s' : VoronoiDiagram2D C}, run s ms = .ok s' → (∀ m ∈ ms, m.isAppend = true) →
      ∃ w, s'.m_EdgeList = s.m_EdgeList ++ w := by
  induction ms with
  | nil => intro s s' h _; injection h with h; subst h; exact ⟨[], (List.append_nil _).symm⟩
  | cons m ms ih =>
    intro s s' h hall
    obtain ⟨s1, e, h1⟩ := run_cons_ok h
    obtain ⟨w1, hw1⟩ := Mutator.apply_edgeList_append e (hall m (List.mem_cons_self _ _))
    obtain ⟨w2, hw2⟩ := ih h1 (fun m' hm' => hall m' (List.mem_cons_of_mem _ hm'))
    exact ⟨w1 ++ w2, by rw [hw2, hw1, List.append_assoc]⟩

theorem EdgeListSize_manyEdges (n : Nat) : (manyEdges n).EdgeListSize = static_cast_int n := by
  simp [manyEdges, EdgeListSize]

theorem GetEdgeLineID_manyEdges_AddEdge (n : Nat) (h : 0 < n) (x : VoronoiEdge Int) :
    ((manyEdges n).AddEdge x).GetEdgeLineID 0 = .ok 0 := by
  rw [GetEdgeLineID_ok_iff]
  refine ⟨⟨⟨0, 0⟩, ⟨0, 0⟩, 0, 0, 0⟩, ?_, rfl⟩
  rw [vectorAt_ok_iff]
  refine ⟨le_refl _, ?_⟩
  show (List.replicate n (⟨⟨0, 0⟩, ⟨0, 0⟩, 0, 0, 0⟩ : VoronoiEdge Int) ++ [x])[0]? = _
  rw [List.getElem?_append_left (by simpa using h), List.getElem?_replicate, if_pos h]

/-- C6, as stated, fails once the edge list holds `2^32` records: `EdgeListSize()`
then reports `k = 0`, and after `AddEdge` of an edge with `m_LineID = 7`
the call `GetEdgeLineID(0)` gives the line id `0` of the first edge. -/
theorem edge_line_id_wraps :
    (manyEdges (2 ^ 32)).EdgeListSize = 0 ∧
      ((manyEdges (2 ^ 32)).AddEdge ⟨⟨0, 0⟩, ⟨0, 0⟩, 0, 1, 7⟩).GetEdgeLineID
        (manyEdges (2 ^ 32)).EdgeListSize = .ok 0 ∧
      ((manyEdges (2 ^ 32)).AddEdge ⟨⟨0, 0⟩, ⟨0, 0⟩, 0, 1, 7⟩).GetEdgeLineID
        (manyEdges (2 ^ 32)).EdgeListSize ≠ .ok 7 := by
  have h0 : (manyEdges (2 ^ 32)).EdgeListSize = 0 := by
    rw [EdgeListSize_manyEdges]
    decide
  rw [h0, GetEdgeLineID_manyEdges_AddEdge (2 ^ 32) (by decide)]
  exact ⟨rfl, rfl, by decide⟩

/-- C6 (amended). For an edge list of fewer than `2^31` records: an edge record
`e` appended by `AddEdge` at position `k` (`k = EdgeListSize()` before the call)
has `GetEdgeLineID(k) = e.m_LineID`, and this still holds after any number of
further `AddEdge`, `AddLine`, `AddVert` and `AddCellNeighbor` calls. -/
theorem edge_line_id_kept (s s' : VoronoiDiagram2D C) (e : VoronoiEdge C)
    (ms : List (Mutator C)) (hsize : s.m_EdgeList.length < 2 ^ 31)
    (hms : ∀ m ∈ ms, m.isAppend = true) (hrun : run (s.AddEdge e) ms = .ok s') :
    (s.AddEdge e).GetEdgeLineID s.EdgeListSize = .ok e.m_LineID ∧
      s'.GetEdgeLineID s.EdgeListSize = .ok e.m_LineID := by
  have hk : s.EdgeListSize = (s.m_EdgeList.length : Int) := static_cast_int_of_lt hsize
  have h1 : vectorAt (s.AddEdge e).m_EdgeList s.EdgeListSize = .ok e := by
    rw [hk]
    exact vectorAt_concat_length _ _
  obtain ⟨w, hw⟩ := run_edgeList_append ms hrun hms
  refine ⟨(GetEdgeLineID_ok_iff _ _ _).2 ⟨e, h1, rfl⟩, (GetEdgeLineID_ok_iff _ _ _).2 ⟨e, ?_, rfl⟩⟩
  rw [hw]
  exact vectorAt_append_of_ok w h1

/-- An instance of C6 (amended): in the scenario of the specification the edge
appended at position `0` with line `0` keeps `GetEdgeLineID(0) = 0` after a
further `AddLine`, `AddCellNeighbor` and `AddEdge`. -/
theorem edge_line_id_kept_witness :
    ∃ s', run (scenarioSeeded.AddEdge ⟨⟨5, 3⟩, ⟨5, 3⟩, 0, 1, 0⟩)
        [.addLine ⟨0, 1⟩, .addCellNeighbor ⟨0, 1⟩, .addEdge ⟨⟨5, 3⟩, ⟨5, 3⟩, 1, 2, 1⟩] = .ok s' ∧
      s'.GetEdgeLineID scenarioSeeded.EdgeListSize = .ok 0 :=
  ⟨_, rfl,
    (edge_line_id_kept scenarioSeeded _ ⟨⟨5, 3⟩, ⟨5, 3⟩, 0, 1, 0⟩
      [.addLine ⟨0, 1⟩, .addCellNeighbor ⟨0, 1⟩, .addEdge ⟨⟨5, 3⟩, ⟨5, 3⟩, 1, 2, 1⟩]
      (by decide) (by decide) rfl).2⟩

/-- C7. For every edge record `e` whose `m_LineID` is a valid line index
(`0 ≤ m_LineID < LineListSize()`), `GetLine(e.m_LineID)` returns a line and
`GetSeedsIDAroundEdge(e)` returns the same one; so does `GetSeedsIDAroundEdge` of
every edge record with the same line id, whatever its `m_LeftID`, its `m_RightID`
and its two end points. -/
theorem GetSeedsIDAroundEdge_eq_GetLine (s : VoronoiDiagram2D C) (e : VoronoiEdge C)
    (h0 : 0 ≤ e.m_LineID) (h1 : e.m_LineID < s.LineListSize) :
    ∃ l, s.GetLine e.m_LineID = .ok l ∧ s.GetSeedsIDAroundEdge e = .ok l ∧
      ∀ e' : VoronoiEdge C, e'.m_LineID = e.m_LineID → s.GetSeedsIDAroundEdge e' = .ok l := by
  have hlt : e.m_LineID.toNat < s.m_LineList.length := by
    rcases toNat_lt_of_lt_static_cast_int h1 with h | h
    · exact h
    · omega
  have hg : s.GetLine e.m_LineID = .ok s.m_LineList[e.m_LineID.toNat] :=
    vectorAt_of_lt _ _ h0 hlt
  refine ⟨_, hg, hg, ?_⟩
  intro e' he'
  unfold GetSeedsIDAroundEdge
  rw [he']
  exact hg

/-- An instance of C7: the edge of the scenario of the specification, with line
id `0`, lies between the seeds `(0, 1)` of line `0`. -/
theorem GetSeedsIDAroundEdge_eq_GetLine_witness :
    ∃ l, scenarioBuilt.GetLine 0 = .ok l ∧
      scenarioBuilt.GetSeedsIDAroundEdge ⟨⟨5, 3⟩, ⟨5, 3⟩, 0, 1, 0⟩ = .ok l ∧
      ∀ e' : VoronoiEdge Int, e'.m_LineID = 0 → scenarioBuilt.GetSeedsIDAroundEdge e' = .ok l :=
  GetSeedsIDAroundEdge_eq_GetLine scenarioBuilt ⟨⟨5, 3⟩, ⟨5, 3⟩, 0, 1, 0⟩ (by decide) (by decide)

/-- C8. For every valid edge id `k` (`0 ≤ k < EdgeListSize()`), `GetEdgeEnd(k)` is
the pair `(GetEdge(k).m_LeftID, GetEdge(k).m_RightID)`, in that order; and in the
scenario of the specification (three seeds, the vertex `(5,3)`, the line `(0,1)`,
the edge with left seed `0`, right seed `1` and line `0`) `GetEdgeEnd(0) = (0,1)`
and `VertexListSize() = 1`. -/
theorem GetEdgeEnd_projects :
    (∀ (s : VoronoiDiagram2D C) (k : Int), 0 ≤ k → k < s.EdgeListSize →
      ∃ e, s.GetEdge k = .ok e ∧ s.GetEdgeEnd k = .ok ⟨e.m_LeftID, e.m_RightID⟩) ∧
    (run (InsertCells (SetSeeds (new ⟨0, 0⟩) [⟨0, 0⟩, ⟨10, 0⟩, ⟨5, 10⟩])) scenarioCalls
        = .ok scenarioBuilt ∧
      scenarioBuilt.GetEdgeEnd 0 = .ok ⟨0, 1⟩ ∧ scenarioBuilt.VertexListSize = .ok 1) := by
  refine ⟨?_, rfl, rfl, rfl⟩
  intro s k h0 h1
  have hlt : k.toNat < s.m_EdgeList.length := by
    rcases toNat_lt_of_lt_static_cast_int h1 with h | h
    · exact h
    · omega
  have hg : vectorAt s.m_EdgeList k = .ok s.m_EdgeList[k.toNat] := vectorAt_of_lt _ _ h0 hlt
  refine ⟨_, hg, ?_⟩
  unfold GetEdgeEnd
  rw [hg]

/-- An instance of C8: the edge id `0` at the end of the scenario. -/
theorem GetEdgeEnd_projects_witness :
    ∃ e, scenarioBuilt.GetEdge 0 = .ok e ∧
      scenarioBuilt.GetEdgeEnd 0 = .ok ⟨e.m_LeftID, e.m_RightID⟩ :=
  (@GetEdgeEnd_projects Int).1 scenarioBuilt 0 (by decide) (by decide)

/-! ## Seeds -/

/-- C9. After `SetSeeds` with the sequence `ps`, the number of seeds is the
length of `ps` and `GetSeed(i)` is the `i`-th point of `ps` for every `i` below
it; a second `SetSeeds` leaves the state that it alone would have given, with
no seed of the first one left (`GetSeed` fails from the new length on). -/
theorem SetSeeds_GetSeed (s : VoronoiDiagram2D C) (ps qs : List (PointType C)) :
    (s.SetSeeds ps).GetNumberOfSeeds = ps.length ∧
    (∀ (i : Nat) (h : i < ps.length), (s.SetSeeds ps).GetSeed i = .ok ps[i]) ∧
    (s.SetSeeds ps).SetSeeds qs = s.SetSeeds qs ∧
    ((s.SetSeeds ps).SetSeeds qs).m_Seeds = qs ∧
    ((s.SetSeeds ps).SetSeeds qs).GetNumberOfSeeds = qs.length ∧
    (∀ (i : Nat) (h : i < qs.length), ((s.SetSeeds ps).SetSeeds qs).GetSeed i = .ok qs[i]) ∧
    (∀ i : Nat, qs.length ≤ i → ((s.SetSeeds ps).SetSeeds qs).GetSeed i = .error .outOfRange) := by
  have key : ∀ (t : VoronoiDiagram2D C) (l : List (PointType C)) (i : Nat) (h : i < l.length),
      (t.SetSeeds l).GetSeed i = .ok l[i] := by
    intro t l i h
    unfold GetSeed SetSeeds
    have hc : (0 : Int) ≤ (i : Int) ∧ (i : Int) < (l.length : Int) := by omega
    simp only [hc, and_self, if_true, Int.toNat_ofNat, List.getElem?_eq_getElem h]
  refine ⟨rfl, key s ps, rfl, rfl, rfl, key _ qs, ?_⟩
  intro i hi
  unfold GetSeed SetSeeds
  have hc : ¬ ((0 : Int) ≤ (i : Int) ∧ (i : Int) < (qs.length : Int)) := by omega
  simp only [hc, if_false]

/-- An instance of C9: the three seeds of the scenario of the specification,
loaded over two earlier seeds. -/
theorem SetSeeds_GetSeed_witness :
    (((new ⟨0, 0⟩ : VoronoiDiagram2D Int).SetSeeds [⟨1, 1⟩, ⟨2, 2⟩]).SetSeeds
        [⟨0, 0⟩, ⟨10, 0⟩, ⟨5, 10⟩]).GetSeed (2 : Nat) = .ok ⟨5, 10⟩ ∧
      (((new ⟨0, 0⟩ : VoronoiDiagram2D Int).SetSeeds [⟨0, 0⟩, ⟨10, 0⟩, ⟨5, 10⟩]).SetSeeds
        [⟨1, 1⟩, ⟨2, 2⟩]).GetSeed (2 : Nat) = .error .outOfRange :=
  ⟨(SetSeeds_GetSeed (new ⟨0, 0⟩ : VoronoiDiagram2D Int) [⟨1, 1⟩, ⟨2, 2⟩]
      [⟨0, 0⟩, ⟨10, 0⟩, ⟨5, 10⟩]).2.2.2.2.2.1 2 (by decide),
    (SetSeeds_GetSeed (new ⟨0, 0⟩ : VoronoiDiagram2D Int) [⟨0, 0⟩, ⟨10, 0⟩, ⟨5, 10⟩]
      [⟨1, 1⟩, ⟨2, 2⟩]).2.2.2.2.2.2 2 (by decide)⟩

/-! ## Regions -/

theorem regionPointIds_of_update {s : VoronoiDiagram2D C} {r : List PolygonCell} {i : Int}
    {f : PolygonCell → PolygonCell} (h : vectorUpdate s.m_VoronoiRegions i f = .ok r) (j : Int) :
    regionPointIds { s with m_VoronoiRegions := r } j =
      match vectorAt s.m_VoronoiRegions j with
      | .ok c => .ok (if j = i then f c else c).m_PointIds
      | .error e => .error e := by
  unfold regionPointIds
  simp only
  rw [vectorAt_vectorUpdate h j]
  cases vectorAt s.m_VoronoiRegions j <;> rfl

/-- C10. For every seed id `i` that has a region (`0 ≤ i` below the number of
allocated regions, which is `NumberOfSeeds` after `InsertCells`), `ClearRegion(i)`
goes through, leaves region `i` with an empty point-id sequence, and leaves
unchanged the point-id sequence of every region `j ≠ i`, the seeds and their
number, the vertices, the lines, the edges and every neighbour list. -/
theorem ClearRegion_frame (s : VoronoiDiagram2D C) (i : Int) (h0 : 0 ≤ i)
    (h1 : i.toNat < s.m_VoronoiRegions.length) :
    ∃ s', s.ClearRegion i = .ok s' ∧ s'.regionPointIds i = .ok [] ∧
      (∀ j, j ≠ i → s'.regionPointIds j = s.regionPointIds j) ∧
      s'.m_Seeds = s.m_Seeds ∧ s'.m_NumberOfSeeds = s.m_NumberOfSeeds ∧
      s'.m_PointsContainer = s.m_PointsContainer ∧ s'.m_LineList = s.m_LineList ∧
      s'.m_EdgeList = s.m_EdgeList ∧ s'.m_CellNeighborsID = s.m_CellNeighborsID := by
  have hu := vectorUpdate_of_lt s.m_VoronoiRegions i PolygonCell.ClearPoints h0 h1
  refine ⟨_, (ClearRegion_ok_iff s _ i).2 ⟨_, hu, rfl⟩, ?_, ?_, rfl, rfl, rfl, rfl, rfl, rfl⟩
  · rw [regionPointIds_of_update hu i, vectorAt_of_lt _ i h0 h1]
    simp [PolygonCell.ClearPoints]
  · intro j hj
    rw [regionPointIds_of_update hu j]
    unfold regionPointIds
    cases vectorAt s.m_VoronoiRegions j with
    | error e => rfl
    | ok c => simp [hj]

/-- An instance of C10: `ClearRegion(1)` in the scenario of the specification,
with vertex `0` on the boundary of the regions `0` and `1`. -/
theorem ClearRegion_frame_witness :
    ∃ s', scenarioRegions.ClearRegion 1 = .ok s' ∧ s'.regionPointIds 1 = .ok [] ∧
      (∀ j, j ≠ 1 → s'.regionPointIds j = scenarioRegions.regionPointIds j) ∧
      s'.m_Seeds = scenarioRegions.m_Seeds ∧
      s'.m_NumberOfSeeds = scenarioRegions.m_NumberOfSeeds ∧
      s'.m_PointsContainer = scenarioRegions.m_PointsContainer ∧
      s'.m_LineList = scenarioRegions.m_LineList ∧
      s'.m_EdgeList = scenarioRegions.m_EdgeList ∧
      s'.m_CellNeighborsID = scenarioRegions.m_CellNeighborsID :=
  ClearRegion_frame scenarioRegions 1 (by decide) (by decide)

theorem run_cons_of_ok {s s1 : VoronoiDiagram2D C} {m : Mutator C} (ms : List (Mutator C))
    (h : m.apply s = .ok s1) : run s (m :: ms) = run s1 ms := by
  simp only [run, h]

theorem regionPointIds_ok_iff (s : VoronoiDiagram2D C) (i : Int) (q : List Int) :
    s.regionPointIds i = .ok q ↔ ∃ c, vectorAt s.m_VoronoiRegions i = .ok c ∧ c.m_PointIds = q := by
  unfold regionPointIds
  cases h : vectorAt s.m_VoronoiRegions i with
  | error e => simp
  | ok c => simp

/-- One call of `VoronoiRegionAddPointId` on a seed id that has a region. -/
theorem VoronoiRegionAddPointId_step {s : VoronoiDiagram2D C} {i : Int} {q : List Int}
    (hq : s.regionPointIds i = .ok q) (v : Int) :
    ∃ s', s.VoronoiRegionAddPointId i v = .ok s' ∧ s'.regionPointIds i = .ok (q ++ [v]) ∧
      ∀ j, j ≠ i → s'.regionPointIds j = s.regionPointIds j := by
  obtain ⟨c, hc, rfl⟩ := (regionPointIds_ok_iff s i q).1 hq
  have hlt := vectorAt_ok_lt hc
  have hu := vectorUpdate_of_lt s.m_VoronoiRegions i (fun c => c.AddPointId v) hlt.1 hlt.2
  refine ⟨_, (VoronoiRegionAddPointId_ok_iff s _ i v).2 ⟨_, hu, rfl⟩, ?_, ?_⟩
  · rw [regionPointIds_of_update hu i, hc]
    simp [PolygonCell.AddPointId]
  · intro j hj
    rw [regionPointIds_of_update hu j]
    unfold regionPointIds
    cases vectorAt s.m_VoronoiRegions j with
    | error e => rfl
    | ok c => simp [hj]

/-- C11. For every seed id `i` that has a region, with point-id sequence `q`,
and every list of vertex ids `[v1, ..., vk]`: the calls
`VoronoiRegionAddPointId(i, v1)`, ..., `VoronoiRegionAddPointId(i, vk)` all go
through and leave region `i` with the sequence `q` followed by `v1, ..., vk` in
call order, and the sequence of every other region as it was. -/
theorem VoronoiRegionAddPointId_appends (vs : List Int) :
    ∀ (s : VoronoiDiagram2D C) (i : Int) (q : List Int), s.regionPointIds i = .ok q →
      ∃ s', run s (addPointIdCalls i vs) = .ok s' ∧ s'.regionPointIds i = .ok (q ++ vs) ∧
        ∀ j, j ≠ i → s'.regionPointIds j = s.regionPointIds j := by
  induction vs with
  | nil =>
    intro s i q hq
    exact ⟨s, rfl, by rw [List.append_nil]; exact hq, fun _ _ => rfl⟩
  | cons v vs ih =>
    intro s i q hq
    obtain ⟨s1, h1, hq1, hf1⟩ := VoronoiRegionAddPointId_step hq v
    obtain ⟨s', h', hq', hf'⟩ := ih s1 i (q ++ [v]) hq1
    refine ⟨s', ?_, ?_, ?_⟩
    · show run s (Mutator.voronoiRegionAddPointId i v :: addPointIdCalls i vs) = _
      rw [run_cons_of_ok _ (show (Mutator.voronoiRegionAddPointId i v).apply s = .ok s1 from h1)]
      exact h'
    · rw [hq', List.append_assoc]
      rfl
    · intro j hj
      rw [hf' j hj, hf1 j hj]

/-- An instance of C11: in the scenario of the specification, region `0` holds the
sequence `[0]`; the calls with the vertex ids `2, 1, 2` leave it `[0, 2, 1, 2]`. -/
theorem VoronoiRegionAddPointId_appends_witness :
    ∃ s', run scenarioRegions (addPointIdCalls 0 [2, 1, 2]) = .ok s' ∧
      s'.regionPointIds 0 = .ok ([0] ++ [2, 1, 2]) ∧
      ∀ j, j ≠ 0 → s'.regionPointIds j = scenarioRegions.regionPointIds j :=
  VoronoiRegionAddPointId_appends [2, 1, 2] scenarioRegions 0 [0] rfl

/-! ## Ids outside the collections -/

end VoronoiDiagram2D

/-- An index outside the vector: nothing is checked, the behaviour is undefined. -/
theorem vectorAt_outside {α : Type} (v : List α) (id : Int)
    (h : ¬ (0 ≤ id ∧ id < (v.length : Int))) : vectorAt v id = .error .undefinedBehaviour := by
  unfold vectorAt
  by_cases h0 : 0 ≤ id
  · have hn : v.length ≤ id.toNat := by omega
    simp [h0, List.getElem?_eq_none hn]
  · simp [h0]

theorem vectorUpdate_outside {α : Type} (v : List α) (id : Int) (f : α → α)
    (h : ¬ (0 ≤ id ∧ id < (v.length : Int))) :
    vectorUpdate v id f = .error .undefinedBehaviour := by
  unfold vectorUpdate
  rw [vectorAt_outside v id h]

namespace VoronoiDiagram2D

variable {C : Type}

/-- Below `2^31` entries the reported size is the size: an id outside
`[0, static_cast<int>(size))` is outside the vector. -/
theorem outside_of_static_cast_int {id : Int} {n : Nat} (hn : n < 2 ^ 31)
    (h : ¬ (0 ≤ id ∧ id < static_cast_int n)) : ¬ (0 ≤ id ∧ id < (n : Int)) := by
  rw [static_cast_int_of_lt hn] at h
  exact h

theorem GetLine_manyLines (n : Nat) (h : 0 < n) : (manyLines n).GetLine 0 = .ok ⟨0, 0⟩ := by
  unfold GetLine
  rw [vectorAt_ok_iff]
  refine ⟨le_refl _, ?_⟩
  show (List.replicate n (⟨0, 0⟩ : EdgeInfo))[0]? = some ⟨0, 0⟩
  rw [List.getElem?_replicate, if_pos h]

/-- C12, as stated, fails.  The accessors index the vectors unchecked: on a new
mesh, whose lists are empty, `GetLine(0)`, `GetEdge(-1)`, `GetEdgeEnd(0)` and
`GetEdgeLineID(0)` are out-of-bounds reads, undefined behaviour, and no
out-of-range condition is raised.  And with `2^32` lines `LineListSize()` is `0`,
so the id `0` is not in `[0, LineListSize())`, yet `GetLine(0)` returns a line. -/
theorem lookup_outside_not_refused :
    ((new ⟨0, 0⟩ : VoronoiDiagram2D Int).LineListSize = 0 ∧
      (new ⟨0, 0⟩ : VoronoiDiagram2D Int).EdgeListSize = 0 ∧
      (new ⟨0, 0⟩ : VoronoiDiagram2D Int).GetLine 0 = .error .undefinedBehaviour ∧
      (new ⟨0, 0⟩ : VoronoiDiagram2D Int).GetLine 0 ≠ .error .outOfRange ∧
      (new ⟨0, 0⟩ : VoronoiDiagram2D Int).GetEdge (-1) = .error .undefinedBehaviour ∧
      (new ⟨0, 0⟩ : VoronoiDiagram2D Int).GetEdgeEnd 0 = .error .undefinedBehaviour ∧
      (new ⟨0, 0⟩ : VoronoiDiagram2D Int).GetEdgeLineID 0 = .error .undefinedBehaviour) ∧
    ((manyLines (2 ^ 32)).LineListSize = 0 ∧ (manyLines (2 ^ 32)).GetLine 0 = .ok ⟨0, 0⟩) := by
  refine ⟨by decide, ?_, GetLine_manyLines (2 ^ 32) (by decide)⟩
  rw [LineListSize_manyLines]
  decide

/-- C12 (amended). The accessors make no bounds check.  `GetLine(id)` is an
out-of-bounds read, undefined behaviour with no out-of-range condition raised,
whenever `id` is not in `[0, number of stored lines)`, and so are `GetEdge(id)`,
`GetEdgeEnd(id)` and `GetEdgeLineID(id)` whenever `id` is not in
`[0, number of stored edges)` (negative ids included); while fewer than `2^31`
entries are stored these ranges are `[0, LineListSize())` and
`[0, EdgeListSize())`. -/
theorem lookup_outside_undefined (s : VoronoiDiagram2D C) (id : Int) :
    (¬ (0 ≤ id ∧ id < (s.m_LineList.length : Int)) →
      s.GetLine id = .error .undefinedBehaviour) ∧
    (¬ (0 ≤ id ∧ id < (s.m_EdgeList.length : Int)) →
      s.GetEdge id = .error .undefinedBehaviour ∧
      s.GetEdgeEnd id = .error .undefinedBehaviour ∧
      s.GetEdgeLineID id = .error .undefinedBehaviour) ∧
    (s.m_LineList.length < 2 ^ 31 → ¬ (0 ≤ id ∧ id < s.LineListSize) →
      s.GetLine id = .error .undefinedBehaviour) ∧
    (s.m_EdgeList.length < 2 ^ 31 → ¬ (0 ≤ id ∧ id < s.EdgeListSize) →
      s.GetEdge id = .error .undefinedBehaviour ∧
      s.GetEdgeEnd id = .error .undefinedBehaviour ∧
      s.GetEdgeLineID id = .error .undefinedBehaviour) := by
  have hE : ¬ (0 ≤ id ∧ id < (s.m_EdgeList.length : Int)) →
      s.GetEdge id = .error .undefinedBehaviour ∧
      s.GetEdgeEnd id = .error .undefinedBehaviour ∧
      s.GetEdgeLineID id = .error .undefinedBehaviour := by
    intro h
    have hv := vectorAt_outside s.m_EdgeList id h
    refine ⟨hv, ?_, ?_⟩
    · unfold GetEdgeEnd
      rw [hv]
    · unfold GetEdgeLineID
      rw [hv]
  exact ⟨vectorAt_outside _ id, hE,
    fun hn h => vectorAt_outside _ id (outside_of_static_cast_int hn h),
    fun hn h => hE (outside_of_static_cast_int hn h)⟩

/-- An instance of C12 (amended): the ids `1` and `-1` at the end of the scenario
of the specification, which has one line and one edge. -/
theorem lookup_outside_undefined_witness :
    scenarioBuilt.GetLine 1 = .error .undefinedBehaviour ∧
      scenarioBuilt.GetEdgeLineID (-1) = .error .undefinedBehaviour :=
  ⟨(lookup_outside_undefined scenarioBuilt 1).2.2.1 (by decide) (by decide),
    ((lookup_outside_undefined scenarioBuilt (-1)).2.2.2 (by decide) (by decide)).2.2⟩

theorem manyVertsContainer_dense (n : Nat) :
    PointsDense (manyVertsContainer n) ∧ (manyVertsContainer n).Size = n := by
  induction n with
  | zero => exact ⟨PointsDense_of_Size_eq_zero rfl, rfl⟩
  | succ n ih =>
    have h := PointsDense_InsertElement ih.1 (⟨0, 0⟩ : PointType Int)
    refine ⟨h.1, ?_⟩
    show ((manyVertsContainer n).InsertElement (manyVertsContainer n).Size ⟨0, 0⟩).Size = n + 1
    rw [h.2, ih.2]

theorem manyVertsContainer_lookup_zero (n : Nat) :
    (manyVertsContainer (n + 1)).m_Map.lookup 0 = some ⟨0, 0⟩ := by
  induction n with
  | zero => rfl
  | succ n ih =>
    have hsz : (manyVertsContainer (n + 1)).Size = n + 1 := (manyVertsContainer_dense (n + 1)).2
    show ((manyVertsContainer (n + 1)).InsertElement (manyVertsContainer (n + 1)).Size
      ⟨0, 0⟩).m_Map.lookup 0 = _
    rw [hsz]
    simp only [PointsContainer.InsertElement]
    rw [AList.lookup_insert_ne (Nat.succ_ne_zero n).symm]
    exact ih

theorem VertexListSize_manyVerts (n : Nat) :
    (manyVerts n).VertexListSize = .ok (static_cast_int n) := by
  simp only [manyVerts, VertexListSize, (manyVertsContainer_dense n).2]

theorem GetVertex_manyVerts (n : Nat) (h : 0 < n) : (manyVerts n).GetVertex 0 = .ok ⟨0, 0⟩ := by
  obtain ⟨k, rfl⟩ : ∃ k, n = k + 1 := ⟨n - 1, by omega⟩
  have hk : ((0 : Int) % 2 ^ 64).toNat = 0 := by decide
  simp only [manyVerts, GetVertex, PointsContainer.ElementAt]
  rw [hk, manyVertsContainer_lookup_zero k]

theorem AddVert_manyVerts (k : Nat) : (manyVerts k).AddVert ⟨0, 0⟩ = .ok (manyVerts (k + 1)) :=
  rfl

theorem run_replicate_addVert (n : Nat) :
    ∀ k, run (manyVerts k) (List.replicate n (.addVert ⟨0, 0⟩)) = .ok (manyVerts (k + n)) := by
  induction n with
  | zero => intro k; rfl
  | succ n ih =>
    intro k
    rw [List.replicate_succ,
      run_cons_of_ok _ (show (Mutator.addVert ⟨0, 0⟩).apply (manyVerts k) = _ from
        AddVert_manyVerts k),
      ih (k + 1)]
    congr 2
    omega

/-- C13, as stated, fails once `2^32` vertices are stored: after `2^32` calls of
`AddVert` on a new mesh `VertexListSize()` is `0`, so the id `0` is not in
`[0, VertexListSize())`, yet `GetVertex(0)` returns the first vertex. -/
theorem GetVertex_outside_reported_size :
    run (new ⟨0, 0⟩) (List.replicate (2 ^ 32) (.addVert ⟨0, 0⟩)) = .ok (manyVerts (2 ^ 32)) ∧
      (manyVerts (2 ^ 32)).VertexListSize = .ok 0 ∧
      (manyVerts (2 ^ 32)).GetVertex 0 = .ok ⟨0, 0⟩ := by
  refine ⟨?_, ?_, GetVertex_manyVerts (2 ^ 32) (by decide)⟩
  · have h := run_replicate_addVert (2 ^ 32) 0
    rw [Nat.zero_add] at h
    exact h
  · rw [VertexListSize_manyVerts]
    decide

/-- C13 (amended). In a mesh whose vertex container exists and holds fewer than
`2^31` vertices under the ids `0, ..., Size() - 1` (the states that `AddVert` and
`VertexListClear` produce), `GetVertex(id)` fails with an out-of-range condition
whenever the `int` `id` is not in `[0, VertexListSize())`: it returns no point,
default-valued or other, and `VertexListSize()` is the same after the call. -/
theorem GetVertex_outside_refused (s : VoronoiDiagram2D C) (c : PointsContainer C) (id n : Int)
    (hc : s.m_PointsContainer = some c) (hd : PointsDense c) (hs : c.Size < 2 ^ 31)
    (hint : -2 ^ 31 ≤ id ∧ id < 2 ^ 31) (hn : s.VertexListSize = .ok n)
    (hid : ¬ (0 ≤ id ∧ id < n)) :
    s.GetVertex id = .error .outOfRange ∧
      (∀ p, s.GetVertex id ≠ .ok p) ∧
      (s.GetVertex_state id).VertexListSize = s.VertexListSize := by
  have hv : s.GetVertex id = .error .outOfRange := by
    unfold VertexListSize at hn
    rw [hc] at hn
    injection hn with hn
    rw [static_cast_int_of_lt hs] at hn
    subst hn
    have hk : c.Size ≤ (id % 2 ^ 64).toNat := by omega
    have hnot : (id % 2 ^ 64).toNat ∉ c.m_Map := by
      rw [AList.mem_keys, hd]
      omega
    simp only [GetVertex, hc, PointsContainer.ElementAt, AList.lookup_eq_none.2 hnot]
  refine ⟨hv, ?_, rfl⟩
  intro p hp
  rw [hv] at hp
  exact Except.noConfusion hp

/-- An instance of C13 (amended): the ids `1` and `-1` at the end of the scenario
of the specification, which has one vertex. -/
theorem GetVertex_outside_refused_witness :
    (scenarioBuilt.GetVertex 1 = .error .outOfRange ∧
      (∀ p, scenarioBuilt.GetVertex 1 ≠ .ok p) ∧
      (scenarioBuilt.GetVertex_state 1).VertexListSize = scenarioBuilt.VertexListSize) ∧
    scenarioBuilt.GetVertex (-1) = .error .outOfRange :=
  ⟨GetVertex_outside_refused scenarioBuilt (PointsContainer.New.InsertElement 0 ⟨5, 3⟩) 1 1 rfl
      (PointsDense_InsertElement
        (PointsDense_of_Size_eq_zero (rfl : (PointsContainer.New : PointsContainer Int).Size = 0))
        ⟨5, 3⟩).1
      (by decide) (by decide) rfl (by decide),
    (GetVertex_outside_refused scenarioBuilt (PointsContainer.New.InsertElement 0 ⟨5, 3⟩) (-1) 1
      rfl (PointsDense_InsertElement
        (PointsDense_of_Size_eq_zero (rfl : (PointsContainer.New : PointsContainer Int).Size = 0))
        ⟨5, 3⟩).1
      (by decide) (by decide) rfl (by decide)).1⟩

theorem BuildEdge_ok_iff (s s' : VoronoiDiagram2D C) (i : Int) :
    s.BuildEdge i = .ok s' ↔
      ∃ r, vectorUpdate s.m_VoronoiRegions i PolygonCell.BuildEdges = .ok r ∧
        s' = { s with m_VoronoiRegions := r } := by
  unfold BuildEdge
  constructor
  · intro h
    split at h
    · exact Except.noConfusion h
    · rename_i r e
      injection h with h
      exact ⟨r, e, h.symm⟩
  · rintro ⟨r, e, rfl⟩
    simp only [e]

/-- C14, as stated, fails.  On a new mesh, before `InsertCells`, no per-seed slot
exists: `AddCellNeighbor((0, 1))`, `VoronoiRegionAddPointId(0, 0)`,
`ClearRegion(0)` and `BuildEdge(0)` index an empty vector unchecked, which is
undefined behaviour; no out-of-range fault is raised. -/
theorem slot_outside_not_refused :
    (new ⟨0, 0⟩ : VoronoiDiagram2D Int).m_VoronoiRegions.length = 0 ∧
      (new ⟨0, 0⟩ : VoronoiDiagram2D Int).m_CellNeighborsID.length = 0 ∧
      (new ⟨0, 0⟩ : VoronoiDiagram2D Int).AddCellNeighbor ⟨0, 1⟩ = .error .undefinedBehaviour ∧
      (new ⟨0, 0⟩ : VoronoiDiagram2D Int).VoronoiRegionAddPointId 0 0
        = .error .undefinedBehaviour ∧
      (new ⟨0, 0⟩ : VoronoiDiagram2D Int).ClearRegion 0 = .error .undefinedBehaviour ∧
      (new ⟨0, 0⟩ : VoronoiDiagram2D Int).BuildEdge 0 = .error .undefinedBehaviour :=
  ⟨rfl, rfl, rfl, rfl, rfl, rfl⟩

/-- C14 (amended). The per-seed mutators make no bounds check.  `ClearRegion`,
`VoronoiRegionAddPointId` and `BuildEdge` called with a seed id outside
`[0, number of allocated regions)`, and `AddCellNeighbor` called with one of its
two seed ids outside `[0, number of allocated neighbour lists)` — in particular
every call made while no slot exists — index a vector out of bounds: the
behaviour is undefined, no out-of-range fault is raised, and no state after the
call is determined. -/
theorem slot_outside_undefined (s : VoronoiDiagram2D C) :
    (∀ id : Int, ¬ (0 ≤ id ∧ id < (s.m_VoronoiRegions.length : Int)) →
      s.ClearRegion id = .error .undefinedBehaviour ∧
      (∀ x, s.VoronoiRegionAddPointId id x = .error .undefinedBehaviour) ∧
      s.BuildEdge id = .error .undefinedBehaviour) ∧
    (∀ a b : Int, ¬ (0 ≤ a ∧ a < (s.m_CellNeighborsID.length : Int)) ∨
        ¬ (0 ≤ b ∧ b < (s.m_CellNeighborsID.length : Int)) →
      s.AddCellNeighbor ⟨a, b⟩ = .error .undefinedBehaviour) ∧
    (s.m_VoronoiRegions = [] → ∀ id x, s.ClearRegion id = .error .undefinedBehaviour ∧
      s.VoronoiRegionAddPointId id x = .error .undefinedBehaviour ∧
      s.BuildEdge id = .error .undefinedBehaviour) ∧
    (s.m_CellNeighborsID = [] → ∀ x, s.AddCellNeighbor x = .error .undefinedBehaviour) := by
  have hR : ∀ id : Int, ¬ (0 ≤ id ∧ id < (s.m_VoronoiRegions.length : Int)) →
      s.ClearRegion id = .error .undefinedBehaviour ∧
      (∀ x, s.VoronoiRegionAddPointId id x = .error .undefinedBehaviour) ∧
      s.BuildEdge id = .error .undefinedBehaviour := by
    intro id h
    refine ⟨?_, ?_, ?_⟩
    · unfold ClearRegion
      rw [vectorUpdate_outside _ id _ h]
    · intro x
      unfold VoronoiRegionAddPointId
      rw [vectorUpdate_outside _ id _ h]
    · unfold BuildEdge
      rw [vectorUpdate_outside _ id _ h]
  have hN : ∀ a b : Int, ¬ (0 ≤ a ∧ a < (s.m_CellNeighborsID.length : Int)) ∨
        ¬ (0 ≤ b ∧ b < (s.m_CellNeighborsID.length : Int)) →
      s.AddCellNeighbor ⟨a, b⟩ = .error .undefinedBehaviour := by
    intro a b h
    unfold AddCellNeighbor
    by_cases ha : 0 ≤ a ∧ a < (s.m_CellNeighborsID.length : Int)
    · have hb : ¬ (0 ≤ b ∧ b < (s.m_CellNeighborsID.length : Int)) := h.resolve_left (not_not.2 ha)
      have e0 := vectorUpdate_of_lt s.m_CellNeighborsID a (fun l => l ++ [b]) ha.1 (by omega)
      simp only [e0]
      rw [vectorUpdate_outside _ b _ (by rw [List.length_set]; exact hb)]
    · simp only [vectorUpdate_outside _ a _ ha]
  refine ⟨hR, hN, ?_, ?_⟩
  · intro h id x
    have hid : ¬ (0 ≤ id ∧ id < (s.m_VoronoiRegions.length : Int)) := by
      rw [h]
      simp
    exact ⟨(hR id hid).1, (hR id hid).2.1 x, (hR id hid).2.2⟩
  · intro h x
    have hid : ¬ (0 ≤ x.c0 ∧ x.c0 < (s.m_CellNeighborsID.length : Int)) := by
      rw [h]
      simp
    exact hN x.c0 x.c1 (Or.inl hid)

/-- An instance of C14 (amended): with the three slots of the scenario of the
specification, the seed id `3` and the pair `(0, 5)`. -/
theorem slot_outside_undefined_witness :
    scenarioSeeded.ClearRegion 3 = .error .undefinedBehaviour ∧
      scenarioSeeded.AddCellNeighbor ⟨0, 5⟩ = .error .undefinedBehaviour ∧
      (new ⟨0, 0⟩ : VoronoiDiagram2D Int).BuildEdge 0 = .error .undefinedBehaviour :=
  ⟨((slot_outside_undefined scenarioSeeded).1 3 (by decide)).1,
    (slot_outside_undefined scenarioSeeded).2.1 0 5 (Or.inr (by decide)),
    ((slot_outside_undefined (new ⟨0, 0⟩ : VoronoiDiagram2D Int)).2.2.1 rfl 0 0).2.2⟩

/-! ## Clearing and replaying -/

theorem apply_isClear {s : VoronoiDiagram2D C} {m : Mutator C} (hm : m.isClear = true) :
    (m = .lineListClear ∧ m.apply s = .ok s.LineListClear) ∨
    (m = .edgeListClear ∧ m.apply s = .ok s.EdgeListClear) ∨
    (m = .vertexListClear ∧ m.apply s = .ok s.VertexListClear) := by
  cases m with
  | lineListClear => exact Or.inl ⟨rfl, rfl⟩
  | edgeListClear => exact Or.inr (Or.inl ⟨rfl, rfl⟩)
  | vertexListClear => exact Or.inr (Or.inr ⟨rfl, rfl⟩)
  | addCellNeighbor x => exact Bool.noConfusion hm
  | addLine x => exact Bool.noConfusion hm
  | addEdge x => exact Bool.noConfusion hm
  | addVert x => exact Bool.noConfusion hm
  | voronoiRegionAddPointId id x => exact Bool.noConfusion hm
  | clearRegion i => exact Bool.noConfusion hm

/-- A sequence of list clears goes through; a list that is cleared in it, or was
empty before it, is empty after it. -/
theorem run_clears (ms : List (Mutator C)) :
    ∀ s : VoronoiDiagram2D C, (∀ m ∈ ms, m.isClear = true) →
      ∃ s', run s ms = .ok s' ∧
        (Mutator.lineListClear ∈ ms ∨ s.m_LineList = [] → s'.m_LineList = []) ∧
        (Mutator.edgeListClear ∈ ms ∨ s.m_EdgeList = [] → s'.m_EdgeList = []) ∧
        (Mutator.vertexListClear ∈ ms ∨ s.m_PointsContainer = some PointsContainer.New →
          s'.m_PointsContainer = some PointsContainer.New) := by
  induction ms with
  | nil =>
    intro s _
    exact ⟨s, rfl, by simp, by simp, by simp⟩
  | cons m ms ih =>
    intro s hall
    have hm := hall m (List.mem_cons_self _ _)
    have hrest : ∀ m' ∈ ms, m'.isClear = true := fun m' h' => hall m' (List.mem_cons_of_mem _ h')
    rcases apply_isClear (s := s) hm with ⟨rfl, ha⟩ | ⟨rfl, ha⟩ | ⟨rfl, ha⟩
    · obtain ⟨s', hr, hl, he, hv⟩ := ih s.LineListClear hrest
      refine ⟨s', by rw [run_cons_of_ok _ ha]; exact hr, fun _ => hl (Or.inr rfl), ?_, ?_⟩
      · intro h
        apply he
        simpa [LineListClear] using h
      · intro h
        apply hv
        simpa [LineListClear] using h
    · obtain ⟨s', hr, hl, he, hv⟩ := ih s.EdgeListClear hrest
      refine ⟨s', by rw [run_cons_of_ok _ ha]; exact hr, ?_, fun _ => he (Or.inr rfl), ?_⟩
      · intro h
        apply hl
        simpa [EdgeListClear] using h
      · intro h
        apply hv
        simpa [EdgeListClear] using h
    · obtain ⟨s', hr, hl, he, hv⟩ := ih s.VertexListClear hrest
      refine ⟨s', by rw [run_cons_of_ok _ ha]; exact hr, ?_, ?_, fun _ => hv (Or.inr rfl)⟩
      · intro h
        apply hl
        simpa [VertexListClear] using h
      · intro h
        apply he
        simpa [VertexListClear] using h

/-- The three list clears, in whatever order, go through and leave the three
collections empty. -/
theorem run_three_clears (s : VoronoiDiagram2D C) (cs : List (Mutator C))
    (hp : cs.Perm [.lineListClear, .edgeListClear, .vertexListClear]) :
    ∃ s', run s cs = .ok s' ∧ s'.m_LineList = [] ∧ s'.m_EdgeList = [] ∧
      s'.m_PointsContainer = some PointsContainer.New := by
  have hall : ∀ m ∈ cs, m.isClear = true := by
    intro m hm
    have := hp.mem_iff.1 hm
    simp only [List.mem_cons, List.mem_singleton, List.not_mem_nil, or_false] at this
    rcases this with rfl | rfl | rfl <;> rfl
  obtain ⟨s', hr, hl, he, hv⟩ := run_clears cs s hall
  exact ⟨s', hr, hl (Or.inl (hp.mem_iff.2 (by simp))), he (Or.inl (hp.mem_iff.2 (by simp))),
    hv (Or.inl (hp.mem_iff.2 (by simp)))⟩

/-- C15. From every mesh state, the calls `LineListClear()`, `EdgeListClear()` and
`VertexListClear()`, in any order, go through and afterwards `LineListSize() = 0`,
`EdgeListSize() = 0` and `VertexListSize() = 0`; and `VertexListClear()` alone
gives `VertexListSize() = 0`, in particular from a state whose vertex container
does not exist. -/
theorem clears_give_size_zero (s : VoronoiDiagram2D C) (cs : List (Mutator C))
    (hp : cs.Perm [.lineListClear, .edgeListClear, .vertexListClear]) :
    (∃ s', run s cs = .ok s' ∧ s'.LineListSize = 0 ∧ s'.EdgeListSize = 0 ∧
      s'.VertexListSize = .ok 0) ∧
    s.VertexListClear.VertexListSize = .ok 0 ∧
    (s.m_PointsContainer = none → s.VertexListSize = .error .undefinedBehaviour ∧
      s.VertexListClear.VertexListSize = .ok 0) := by
  obtain ⟨s', hr, hl, he, hv⟩ := run_three_clears s cs hp
  refine ⟨⟨s', hr, ?_, ?_, ?_⟩, rfl, ?_⟩
  · unfold LineListSize
    rw [hl]
    rfl
  · unfold EdgeListSize
    rw [he]
    rfl
  · unfold VertexListSize
    rw [hv]
    rfl
  · intro h
    refine ⟨?_, rfl⟩
    unfold VertexListSize
    rw [h]

/-- An instance of C15: the clears in the order vertices, lines, edges, at the end
of the scenario of the specification with the vertex container taken away. -/
theorem clears_give_size_zero_witness :
    (∃ s', run scenarioNoContainer [.vertexListClear, .lineListClear, .edgeListClear] = .ok s' ∧
      s'.LineListSize = 0 ∧ s'.EdgeListSize = 0 ∧ s'.VertexListSize = .ok 0) ∧
    scenarioNoContainer.VertexListSize = .error .undefinedBehaviour ∧
    scenarioNoContainer.VertexListClear.VertexListSize = .ok 0 :=
  ⟨(clears_give_size_zero scenarioNoContainer [.vertexListClear, .lineListClear, .edgeListClear]
      (@List.perm_append_comm _ [Mutator.vertexListClear]
        [Mutator.lineListClear, Mutator.edgeListClear])).1,
    (clears_give_size_zero scenarioNoContainer [.vertexListClear, .lineListClear, .edgeListClear]
      (@List.perm_append_comm _ [Mutator.vertexListClear]
        [Mutator.lineListClear, Mutator.edgeListClear])).2.2 rfl⟩

theorem run_append (as bs : List (Mutator C)) :
    ∀ {s s1 : VoronoiDiagram2D C}, run s as = .ok s1 → run s (as ++ bs) = run s1 bs := by
  induction as with
  | nil =>
    intro s s1 h
    injection h with h
    subst h
    rfl
  | cons a as ih =>
    intro s s1 h
    obtain ⟨s0, e, h0⟩ := run_cons_ok h
    rw [List.cons_append, run_cons_of_ok _ e]
    exact ih h0

/-- The calls `AddVert`, `AddLine` and `AddEdge` read and write the three
collections only: from two states with the same collections they go through
together and give two states with the same collections. -/
theorem apply_isAdd_congr {s t : VoronoiDiagram2D C} {m : Mutator C} (hm : m.isAdd = true)
    (hst : SameLists s t) (hc : ∃ c, s.m_PointsContainer = some c) :
    ∃ s' t', m.apply s = .ok s' ∧ m.apply t = .ok t' ∧ SameLists s' t' ∧
      ∃ c, s'.m_PointsContainer = some c := by
  obtain ⟨hp, hl, he⟩ := hst
  obtain ⟨c, hc⟩ := hc
  cases m with
  | addVert x =>
    refine ⟨_, _, (AddVert_ok_iff s _ x).2 ⟨c, hc, rfl⟩,
      (AddVert_ok_iff t _ x).2 ⟨c, hp ▸ hc, rfl⟩, ⟨rfl, hl, he⟩, _, rfl⟩
  | addLine x =>
    exact ⟨_, _, rfl, rfl, ⟨hp, by simp only [AddLine, hl], he⟩, c, hc⟩
  | addEdge x =>
    exact ⟨_, _, rfl, rfl, ⟨hp, hl, by simp only [AddEdge, he]⟩, c, hc⟩
  | addCellNeighbor x => exact Bool.noConfusion hm
  | voronoiRegionAddPointId id x => exact Bool.noConfusion hm
  | clearRegion i => exact Bool.noConfusion hm
  | lineListClear => exact Bool.noConfusion hm
  | edgeListClear => exact Bool.noConfusion hm
  | vertexListClear => exact Bool.noConfusion hm

theorem run_isAdd_congr (ms : List (Mutator C)) :
    ∀ {s t : VoronoiDiagram2D C}, (∀ m ∈ ms, m.isAdd = true) → SameLists s t →
      (∃ c, s.m_PointsContainer = some c) →
      ∃ s' t', run s ms = .ok s' ∧ run t ms = .ok t' ∧ SameLists s' t' := by
  induction ms with
  | nil => intro s t _ hst _; exact ⟨s, t, rfl, rfl, hst⟩
  | cons m ms ih =>
    intro s t hall hst hc
    obtain ⟨s1, t1, e1, e2, hst1, hc1⟩ :=
      apply_isAdd_congr (hall m (List.mem_cons_self _ _)) hst hc
    obtain ⟨s', t', r1, r2, hst'⟩ :=
      ih (fun m' h' => hall m' (List.mem_cons_of_mem _ h')) hst1 hc1
    exact ⟨s', t', by rw [run_cons_of_ok _ e1]; exact r1, by rw [run_cons_of_ok _ e2]; exact r2,
      hst'⟩

/-- The size accessors and the indexed getters read the three collections only. -/
theorem SameLists.reads {s t : VoronoiDiagram2D C} (h : SameLists s t) :
    s.LineListSize = t.LineListSize ∧ s.EdgeListSize = t.EdgeListSize ∧
      s.VertexListSize = t.VertexListSize ∧
      ∀ i, s.GetVertex i = t.GetVertex i ∧ s.GetLine i = t.GetLine i ∧
        s.GetEdge i = t.GetEdge i := by
  obtain ⟨hp, hl, he⟩ := h
  unfold LineListSize EdgeListSize VertexListSize GetVertex GetLine GetEdge
  rw [hp, hl, he]
  exact ⟨rfl, rfl, rfl, fun _ => ⟨rfl, rfl, rfl⟩⟩

/-- C16. Replay reproduces the mesh: for every sequence `ms` of `AddVert`,
`AddLine` and `AddEdge` calls and every prior state `s`, the three list clears (in
any order) followed by `ms` go through from `s`, `ms` goes through from a new
mesh, and the two final states have the same three sizes and the same
`GetVertex(i)`, `GetLine(i)` and `GetEdge(i)` at every id `i`. -/
theorem replay_reproduces (s : VoronoiDiagram2D C) (o : PointType C) (cs ms : List (Mutator C))
    (hcs : cs.Perm [.lineListClear, .edgeListClear, .vertexListClear])
    (hms : ∀ m ∈ ms, m.isAdd = true) :
    ∃ s1 s2, run s (cs ++ ms) = .ok s1 ∧ run (new o) ms = .ok s2 ∧
      s1.LineListSize = s2.LineListSize ∧ s1.EdgeListSize = s2.EdgeListSize ∧
      s1.VertexListSize = s2.VertexListSize ∧
      ∀ i, s1.GetVertex i = s2.GetVertex i ∧ s1.GetLine i = s2.GetLine i ∧
        s1.GetEdge i = s2.GetEdge i := by
  obtain ⟨sc, hr, hl, he, hv⟩ := run_three_clears s cs hcs
  have hst : SameLists sc (new o) := ⟨hv, hl, he⟩
  obtain ⟨s1, s2, r1, r2, hst'⟩ := run_isAdd_congr ms hms hst ⟨_, hv⟩
  exact ⟨s1, s2, by rw [run_append cs ms hr]; exact r1, r2, hst'.reads⟩

/-- An instance of C16: the calls of the scenario of the specification, replayed
after the three clears on the state at the end of the scenario. -/
theorem replay_reproduces_witness :
    ∃ s1 s2, run scenarioBuilt
        ([.vertexListClear, .lineListClear, .edgeListClear] ++ scenarioCalls) = .ok s1 ∧
      run (new ⟨0, 0⟩) scenarioCalls = .ok s2 ∧
      s1.LineListSize = s2.LineListSize ∧ s1.EdgeListSize = s2.EdgeListSize ∧
      s1.VertexListSize = s2.VertexListSize ∧
      ∀ i, s1.GetVertex i = s2.GetVertex i ∧ s1.GetLine i = s2.GetLine i ∧
        s1.GetEdge i = s2.GetEdge i :=
  replay_reproduces scenarioBuilt ⟨0, 0⟩ [.vertexListClear, .lineListClear, .edgeListClear]
    scenarioCalls
    (@List.perm_append_comm _ [Mutator.vertexListClear]
      [Mutator.lineListClear, Mutator.edgeListClear])
    (by
      intro m hm
      simp only [scenarioCalls, List.mem_cons, List.mem_singleton, List.not_mem_nil,
        or_false] at hm
      rcases hm with rfl | rfl | rfl <;> rfl)

/-! ## Appends keep what is stored -/

theorem static_cast_int_lt (n : Nat) : static_cast_int n < 2 ^ 31 := by
  unfold static_cast_int
  have h1 : n % 2 ^ 32 < 2 ^ 32 := Nat.mod_lt _ (by decide)
  split <;> omega

theorem keeps_of_append {α : Type} {v : List α} (w : List α) {i : Int} (h0 : 0 ≤ i)
    (h1 : i < static_cast_int v.length) :
    ∃ a, vectorAt v i = .ok a ∧ vectorAt (v ++ w) i = .ok a := by
  have hlt : i.toNat < v.length := by
    rcases toNat_lt_of_lt_static_cast_int h1 with h | h
    · exact h
    · omega
  have hg := vectorAt_of_lt v i h0 hlt
  exact ⟨_, hg, vectorAt_append_of_ok w hg⟩

theorem keeps_self {α : Type} {v : List α} {i : Int} (h0 : 0 ≤ i)
    (h1 : i < static_cast_int v.length) :
    ∃ a, vectorAt v i = .ok a ∧ vectorAt v i = .ok a := by
  obtain ⟨a, ha, _⟩ := keeps_of_append (v := v) [] h0 h1
  exact ⟨a, ha, ha⟩

/-- The vertex stored under an id below the reported size is not the one that
`AddVert` writes. -/
theorem GetVertex_AddVert_keeps {s : VoronoiDiagram2D C} {c : PointsContainer C}
    (hc : s.m_PointsContainer = some c) (x : PointType C) {i n : Int}
    (hn : s.VertexListSize = .ok n) (h0 : 0 ≤ i) (h1 : i < n) :
    GetVertex { s with m_PointsContainer := some (c.InsertElement c.Size x) } i
      = s.GetVertex i := by
  unfold VertexListSize at hn
  rw [hc] at hn
  injection hn with hn
  subst hn
  have hle := static_cast_int_le c.Size
  have hlt := static_cast_int_lt c.Size
  have hne : (i % 2 ^ 64).toNat ≠ c.Size := by omega
  simp only [GetVertex, hc, PointsContainer.ElementAt, PointsContainer.InsertElement,
    AList.lookup_insert_ne hne]

theorem prefix_neighborsAfter (x : EdgeInfo) (j : Int) (l : List Int) :
    l <+: neighborsAfter x j l := by
  unfold neighborsAfter
  by_cases h0 : j = x.c0
  · rw [if_pos h0, List.append_assoc]
    exact List.prefix_append _ _
  · rw [if_neg h0]
    exact List.prefix_append _ _

theorem neighbors_prefix_AddCellNeighbor {s s' : VoronoiDiagram2D C} {x : EdgeInfo}
    (h : s.AddCellNeighbor x = .ok s') (a : Int) (l : List Int) (hl : s.neighbors a = .ok l) :
    ∃ l', s'.neighbors a = .ok l' ∧ l <+: l' := by
  refine ⟨neighborsAfter x a l, ?_, prefix_neighborsAfter x a l⟩
  rw [neighbors_AddCellNeighbor h a, hl]

theorem regionPointIds_prefix_AddPointId {s s' : VoronoiDiagram2D C} {id x : Int}
    (h : s.VoronoiRegionAddPointId id x = .ok s') (j : Int) (q : List Int)
    (hq : s.regionPointIds j = .ok q) :
    ∃ q', s'.regionPointIds j = .ok q' ∧ q <+: q' := by
  obtain ⟨r, hu, rfl⟩ := (VoronoiRegionAddPointId_ok_iff s s' id x).1 h
  obtain ⟨c, hc, rfl⟩ := (regionPointIds_ok_iff s j q).1 hq
  rw [regionPointIds_of_update hu j, hc]
  by_cases hj : j = id
  · refine ⟨c.m_PointIds ++ [x], ?_, List.prefix_append _ _⟩
    simp only [hj, if_true, PolygonCell.AddPointId]
  · refine ⟨c.m_PointIds, ?_, List.prefix_refl _⟩
    simp only [hj, if_false]

/-- C17. Appends never change existing entries.  For every state, every call of
`AddLine`, `AddEdge`, `AddVert`, `AddCellNeighbor` or `VoronoiRegionAddPointId`
that goes through, and every id `i` valid before the call: `GetLine(i)` and
`GetEdge(i)` return the same record after the call as before, `GetVertex(i)`
gives the same result, and each neighbour list and each region point sequence
before the call is an initial segment of itself after the call. -/
theorem appends_keep_entries (s s' : VoronoiDiagram2D C) (m : Mutator C)
    (hm : m.isGrow = true) (h : m.apply s = .ok s') :
    (∀ i, 0 ≤ i → i < s.LineListSize → ∃ v, s.GetLine i = .ok v ∧ s'.GetLine i = .ok v) ∧
    (∀ i, 0 ≤ i → i < s.EdgeListSize → ∃ v, s.GetEdge i = .ok v ∧ s'.GetEdge i = .ok v) ∧
    (∀ i n, s.VertexListSize = .ok n → 0 ≤ i → i < n → s'.GetVertex i = s.GetVertex i) ∧
    (∀ a l, s.neighbors a = .ok l → ∃ l', s'.neighbors a = .ok l' ∧ l <+: l') ∧
    (∀ j q, s.regionPointIds j = .ok q → ∃ q', s'.regionPointIds j = .ok q' ∧ q <+: q') := by
  cases m with
  | addLine x =>
    injection h with h
    subst h
    exact ⟨fun i h0 h1 => keeps_of_append [x] h0 h1, fun i h0 h1 => keeps_self h0 h1,
      fun _ _ _ _ _ => rfl, fun a l hl => ⟨l, hl, List.prefix_refl _⟩,
      fun j q hq => ⟨q, hq, List.prefix_refl _⟩⟩
  | addEdge x =>
    injection h with h
    subst h
    exact ⟨fun i h0 h1 => keeps_self h0 h1, fun i h0 h1 => keeps_of_append [x] h0 h1,
      fun _ _ _ _ _ => rfl, fun a l hl => ⟨l, hl, List.prefix_refl _⟩,
      fun j q hq => ⟨q, hq, List.prefix_refl _⟩⟩
  | addVert x =>
    obtain ⟨c, hc, rfl⟩ := (AddVert_ok_iff s s' x).1 h
    exact ⟨fun i h0 h1 => keeps_self h0 h1, fun i h0 h1 => keeps_self h0 h1,
      fun i n hn h0 h1 => GetVertex_AddVert_keeps hc x hn h0 h1,
      fun a l hl => ⟨l, hl, List.prefix_refl _⟩, fun j q hq => ⟨q, hq, List.prefix_refl _⟩⟩
  | addCellNeighbor x =>
    have hn := neighbors_prefix_AddCellNeighbor h
    obtain ⟨n0, n1, _, _, rfl⟩ := (AddCellNeighbor_ok_iff s s' x).1 h
    exact ⟨fun i h0 h1 => keeps_self h0 h1, fun i h0 h1 => keeps_self h0 h1,
      fun _ _ _ _ _ => rfl, hn, fun j q hq => ⟨q, hq, List.prefix_refl _⟩⟩
  | voronoiRegionAddPointId id x =>
    have hr := regionPointIds_prefix_AddPointId h
    obtain ⟨r, _, rfl⟩ := (VoronoiRegionAddPointId_ok_iff s s' id x).1 h
    exact ⟨fun i h0 h1 => keeps_self h0 h1, fun i h0 h1 => keeps_self h0 h1,
      fun _ _ _ _ _ => rfl, fun a l hl => ⟨l, hl, List.prefix_refl _⟩, hr⟩
  | clearRegion i => exact Bool.noConfusion hm
  | lineListClear => exact Bool.noConfusion hm
  | edgeListClear => exact Bool.noConfusion hm
  | vertexListClear => exact Bool.noConfusion hm

/-- An instance of C17: a further `AddVert` at the end of the scenario of the
specification keeps line `0`, edge `0` and vertex `0`. -/
theorem appends_keep_entries_witness :
    ∃ s', (Mutator.addVert ⟨7, 7⟩).apply scenarioBuilt = .ok s' ∧
      s'.GetLine 0 = .ok ⟨0, 1⟩ ∧ s'.GetVertex 0 = scenarioBuilt.GetVertex 0 :=
  ⟨_, rfl,
    by
      obtain ⟨v, hv, hv'⟩ := (appends_keep_entries scenarioBuilt _ (.addVert ⟨7, 7⟩) rfl rfl).1 0
        (by decide) (by decide)
      rw [hv']
      exact hv.symm.trans rfl,
    (appends_keep_entries scenarioBuilt _ (.addVert ⟨7, 7⟩) rfl rfl).2.2.1 0 1 rfl
      (by decide) (by decide)⟩

/-! ## The ranges of the stored ids -/

end VoronoiDiagram2D

theorem mem_of_vectorUpdate {α : Type} {v v' : List α} {id : Int} {f : α → α}
    (h : vectorUpdate v id f = .ok v') {c : α} (hc : c ∈ v') : c ∈ v ∨ ∃ a ∈ v, c = f a := by
  obtain ⟨a, ha, rfl⟩ := (vectorUpdate_ok_iff v v' id f).1 h
  rcases List.mem_or_eq_of_mem_set hc with h1 | h1
  · exact Or.inl h1
  · exact Or.inr ⟨a, List.getElem?_mem ((vectorAt_ok_iff _ _ _).1 ha).2, h1⟩

namespace VoronoiDiagram2D

variable {C : Type}

/-- An insertion never makes the container smaller. -/
theorem Size_le_Size_InsertElement (c : PointsContainer C) (k : Nat) (x : PointType C) :
    c.Size ≤ (c.InsertElement k x).Size := by
  unfold PointsContainer.Size PointsContainer.InsertElement
  simp only [AList.keys_insert, List.length_cons]
  have := List.length_erase k c.m_Map.keys
  split at this <;> omega

/-- C18, as stated, fails: `AddEdge` stores the record it is given.  After
`AddEdge` of an edge with `m_LeftID = 7`, `m_RightID = 8`, `m_LineID = 9` on a
new mesh, which has no seed and no line, the stored ids are out of range. -/
theorem stored_ids_not_checked :
    run (new ⟨0, 0⟩ : VoronoiDiagram2D Int) [.addEdge ⟨⟨0, 0⟩, ⟨0, 0⟩, 7, 8, 9⟩]
        = .ok ((new ⟨0, 0⟩ : VoronoiDiagram2D Int).AddEdge ⟨⟨0, 0⟩, ⟨0, 0⟩, 7, 8, 9⟩) ∧
      ((new ⟨0, 0⟩ : VoronoiDiagram2D Int).AddEdge ⟨⟨0, 0⟩, ⟨0, 0⟩, 7, 8, 9⟩).GetNumberOfSeeds = 0 ∧
      ((new ⟨0, 0⟩ : VoronoiDiagram2D Int).AddEdge ⟨⟨0, 0⟩, ⟨0, 0⟩, 7, 8, 9⟩).LineListSize = 0 ∧
      ((new ⟨0, 0⟩ : VoronoiDiagram2D Int).AddEdge ⟨⟨0, 0⟩, ⟨0, 0⟩, 7, 8, 9⟩).GetEdge 0
        = .ok ⟨⟨0, 0⟩, ⟨0, 0⟩, 7, 8, 9⟩ ∧
      ¬ IdsInRange ((new ⟨0, 0⟩ : VoronoiDiagram2D Int).AddEdge ⟨⟨0, 0⟩, ⟨0, 0⟩, 7, 8, 9⟩) := by
  refine ⟨rfl, rfl, rfl, rfl, ?_⟩
  intro h
  have h7 := (h.1 ⟨⟨0, 0⟩, ⟨0, 0⟩, 7, 8, 9⟩ (List.mem_singleton.2 rfl)).1.2
  exact absurd h7 (by decide)

theorem IdsInBounds_of_IdsInRange {s : VoronoiDiagram2D C} (h : IdsInRange s) :
    IdsInBounds s := by
  refine ⟨?_, ?_⟩
  · intro e he
    obtain ⟨hl, hr, h0, h1⟩ := h.1 e he
    refine ⟨hl, hr, h0, ?_⟩
    rcases toNat_lt_of_lt_static_cast_int h1 with h2 | h2
    · exact h2
    · omega
  · intro c hc v hv
    obtain ⟨n, hn, h0, h1⟩ := h.2 c hc v hv
    unfold VertexListSize at hn
    cases hp : s.m_PointsContainer with
    | none => rw [hp] at hn; exact Except.noConfusion hn
    | some p =>
      rw [hp] at hn
      injection hn with hn
      subst hn
      refine ⟨p, rfl, h0, ?_⟩
      rcases toNat_lt_of_lt_static_cast_int h1 with h2 | h2
      · exact h2
      · omega

theorem IdsInRange_of_IdsInBounds {s : VoronoiDiagram2D C} (h : IdsInBounds s)
    (hl : s.m_LineList.length < 2 ^ 31)
    (hp : ∀ c, s.m_PointsContainer = some c → c.Size < 2 ^ 31) : IdsInRange s := by
  refine ⟨?_, ?_⟩
  · intro e he
    obtain ⟨hL, hR, h0, h1⟩ := h.1 e he
    refine ⟨hL, hR, h0, ?_⟩
    unfold LineListSize
    rw [static_cast_int_of_lt hl]
    omega
  · intro c hc v hv
    obtain ⟨p, hp', h0, h1⟩ := h.2 c hc v hv
    refine ⟨static_cast_int p.Size, ?_, h0, ?_⟩
    · unfold VertexListSize
      rw [hp']
    · rw [static_cast_int_of_lt (hp p hp')]
      omega

/-- One call made with valid ids keeps the stored ids within the collections. -/
theorem IdsInBounds_apply {s s' : VoronoiDiagram2D C} {m : Mutator C} (hb : IdsInBounds s)
    (hv : m.suppliesValidIds s) (h : m.apply s = .ok s') : IdsInBounds s' := by
  cases m with
  | addCellNeighbor x =>
    obtain ⟨n0, n1, _, _, rfl⟩ := (AddCellNeighbor_ok_iff s s' x).1 h
    exact hb
  | addLine x =>
    injection h with h
    subst h
    refine ⟨?_, hb.2⟩
    intro e he
    obtain ⟨hL, hR, h0, h1⟩ := hb.1 e he
    refine ⟨hL, hR, h0, ?_⟩
    show e.m_LineID.toNat < (s.m_LineList ++ [x]).length
    rw [List.length_append, List.length_singleton]
    omega
  | addEdge x =>
    injection h with h
    subst h
    refine ⟨?_, hb.2⟩
    intro e he
    rcases List.mem_append.1 he with h1 | h1
    · exact hb.1 e h1
    · rw [List.mem_singleton] at h1
      subst h1
      obtain ⟨hL, hR, h0, h2⟩ := hv
      refine ⟨hL, hR, h0, ?_⟩
      rcases toNat_lt_of_lt_static_cast_int h2 with h3 | h3
      · exact h3
      · omega
  | addVert x =>
    obtain ⟨p, hp, rfl⟩ := (AddVert_ok_iff s s' x).1 h
    refine ⟨hb.1, ?_⟩
    intro c hc v hvm
    obtain ⟨p', hp', h0, h1⟩ := hb.2 c hc v hvm
    rw [hp] at hp'
    injection hp' with hp'
    subst hp'
    exact ⟨_, rfl, h0, Nat.lt_of_lt_of_le h1 (Size_le_Size_InsertElement p p.Size x)⟩
  | voronoiRegionAddPointId id x =>
    obtain ⟨r, hu, rfl⟩ := (VoronoiRegionAddPointId_ok_iff s s' id x).1 h
    refine ⟨hb.1, ?_⟩
    intro c hc v hvm
    rcases mem_of_vectorUpdate hu hc with h1 | ⟨a, ha, rfl⟩
    · exact hb.2 c h1 v hvm
    · rcases List.mem_append.1 hvm with h2 | h2
      · exact hb.2 a ha v h2
      · rw [List.mem_singleton] at h2
        subst h2
        obtain ⟨n, hn, h0, h1⟩ := hv
        unfold VertexListSize at hn
        cases hp : s.m_PointsContainer with
        | none => rw [hp] at hn; exact Except.noConfusion hn
        | some p =>
          rw [hp] at hn
          injection hn with hn
          subst hn
          refine ⟨p, rfl, h0, ?_⟩
          rcases toNat_lt_of_lt_static_cast_int h1 with h3 | h3
          · exact h3
          · omega
  | clearRegion i =>
    obtain ⟨r, hu, rfl⟩ := (ClearRegion_ok_iff s s' i).1 h
    refine ⟨hb.1, ?_⟩
    intro c hc v hvm
    rcases mem_of_vectorUpdate hu hc with h1 | ⟨a, ha, rfl⟩
    · exact hb.2 c h1 v hvm
    · exact absurd hvm (List.not_mem_nil v)
  | lineListClear =>
    injection h with h
    subst h
    refine ⟨?_, hb.2⟩
    intro e he
    have hnil : s.m_EdgeList = [] := hv
    have he' : e ∈ s.m_EdgeList := he
    rw [hnil] at he'
    exact absurd he' (List.not_mem_nil e)
  | edgeListClear =>
    injection h with h
    subst h
    exact ⟨fun e he => absurd he (List.not_mem_nil e), hb.2⟩
  | vertexListClear =>
    injection h with h
    subst h
    refine ⟨hb.1, ?_⟩
    intro c hc v hvm
    have hnil : c.m_PointIds = [] := hv c hc
    rw [hnil] at hvm
    exact absurd hvm (List.not_mem_nil v)

theorem IdsInBounds_run (ms : List (Mutator C)) :
    ∀ {s s' : VoronoiDiagram2D C}, IdsInBounds s → suppliesValidIdsAll s ms →
      run s ms = .ok s' → IdsInBounds s' := by
  induction ms with
  | nil =>
    intro s s' hb _ h
    injection h with h
    exact h ▸ hb
  | cons m ms ih =>
    intro s s' hb hv h
    obtain ⟨s1, e, h1⟩ := run_cons_ok h
    exact ih (IdsInBounds_apply hb hv.1 e) (hv.2 s1 e) h1

/-- C18 (amended). The mesh stores the ids it is given and checks none, so the
ranges hold when the builder sees to them: from a state in which every stored
edge has `m_LeftID` and `m_RightID` in `[0, NumberOfSeeds)` and `m_LineID` in
`[0, LineListSize())` and every vertex id stored in a region is in
`[0, VertexListSize())`, a sequence of mutator calls in which `AddEdge` and
`VoronoiRegionAddPointId` are given ids in these ranges, `LineListClear` is
called only when no edge is stored and `VertexListClear` only when no region
holds a point id, leads to a state in which the same holds, as long as it holds
fewer than `2^31` lines and fewer than `2^31` vertices. -/
theorem ids_in_range_of_valid_calls (s0 s : VoronoiDiagram2D C) (ms : List (Mutator C))
    (h0 : IdsInRange s0) (hv : suppliesValidIdsAll s0 ms) (hrun : run s0 ms = .ok s)
    (hl : s.m_LineList.length < 2 ^ 31)
    (hp : ∀ c, s.m_PointsContainer = some c → c.Size < 2 ^ 31) : IdsInRange s :=
  IdsInRange_of_IdsInBounds (IdsInBounds_run ms (IdsInBounds_of_IdsInRange h0) hv hrun) hl hp

theorem IdsInRange_scenarioSeeded : IdsInRange scenarioSeeded := by
  refine ⟨fun e he => absurd he (List.not_mem_nil e), ?_⟩
  intro c hc v hv
  have hc' : c ∈ List.replicate 3 (⟨[], []⟩ : PolygonCell) := hc
  rw [List.eq_of_mem_replicate hc'] at hv
  exact absurd hv (List.not_mem_nil v)

theorem suppliesValidIdsAll_scenario : suppliesValidIdsAll scenarioSeeded scenarioCallsRegion := by
  refine ⟨trivial, fun s1 h1 => ?_⟩
  injection h1 with h1
  subst h1
  refine ⟨trivial, fun s2 h2 => ?_⟩
  injection h2 with h2
  subst h2
  refine ⟨⟨⟨by decide, by decide⟩, ⟨by decide, by decide⟩, ⟨by decide, by decide⟩⟩,
    fun s3 h3 => ?_⟩
  injection h3 with h3
  subst h3
  exact ⟨⟨1, rfl, by decide, by decide⟩, fun _ _ => trivial⟩

/-- An instance of C18 (amended): the calls of the scenario of the specification
and `VoronoiRegionAddPointId(0, 0)`, all made with valid ids, leave every stored
id in range. -/
theorem ids_in_range_of_valid_calls_witness :
    run scenarioSeeded scenarioCallsRegion = .ok scenarioRegionZero ∧
      IdsInRange scenarioRegionZero :=
  ⟨rfl,
    ids_in_range_of_valid_calls scenarioSeeded scenarioRegionZero scenarioCallsRegion
      IdsInRange_scenarioSeeded suppliesValidIdsAll_scenario rfl (by decide)
      (fun c hc => by
        injection hc with hc
        subst hc
        decide)⟩

/-! ## Allocation and reset -/

/-- C19. After `SetSeeds` with `n` seeds followed by `InsertCells`, the mesh holds
exactly `n` regions and exactly `n` neighbour lists, every one of them empty, and
every seed id in `[0, n)` is a valid argument of `AddCellNeighbor`,
`VoronoiRegionAddPointId` and `ClearRegion`: the calls go through. -/
theorem InsertCells_allocates (s : VoronoiDiagram2D C) (ps : List (PointType C)) :
    (s.SetSeeds ps).InsertCells.GetNumberOfSeeds = ps.length ∧
    (s.SetSeeds ps).InsertCells.m_VoronoiRegions.length = ps.length ∧
    (s.SetSeeds ps).InsertCells.m_CellNeighborsID.length = ps.length ∧
    (∀ c ∈ (s.SetSeeds ps).InsertCells.m_VoronoiRegions, c.m_PointIds = [] ∧ c.m_Edges = []) ∧
    (∀ l ∈ (s.SetSeeds ps).InsertCells.m_CellNeighborsID, l = []) ∧
    (∀ a b : Int, 0 ≤ a ∧ a < ps.length → 0 ≤ b ∧ b < ps.length →
      ∃ t, (s.SetSeeds ps).InsertCells.AddCellNeighbor ⟨a, b⟩ = .ok t) ∧
    (∀ i v : Int, 0 ≤ i ∧ i < ps.length →
      ∃ t, (s.SetSeeds ps).InsertCells.VoronoiRegionAddPointId i v = .ok t) ∧
    (∀ i : Int, 0 ≤ i ∧ i < ps.length →
      ∃ t, (s.SetSeeds ps).InsertCells.ClearRegion i = .ok t) := by
  have hR : (s.SetSeeds ps).InsertCells.m_VoronoiRegions.length = ps.length := by
    simp [InsertCells, SetSeeds]
  have hN : (s.SetSeeds ps).InsertCells.m_CellNeighborsID.length = ps.length := by
    simp [InsertCells, SetSeeds]
  refine ⟨rfl, hR, hN, ?_, ?_, ?_, ?_, ?_⟩
  · intro c hc
    have hc' : c ∈ List.replicate ps.length (⟨[], []⟩ : PolygonCell) := hc
    rw [List.eq_of_mem_replicate hc']
    exact ⟨rfl, rfl⟩
  · intro l hl
    have hl' : l ∈ List.replicate ps.length ([] : List Int) := hl
    exact List.eq_of_mem_replicate hl'
  · intro a b ha hb
    have ha' : a.toNat < (s.SetSeeds ps).InsertCells.m_CellNeighborsID.length := by
      rw [hN]
      omega
    have hb' : b.toNat < (s.SetSeeds ps).InsertCells.m_CellNeighborsID.length := by
      rw [hN]
      omega
    exact AddCellNeighbor_ok_of_valid _ ⟨a, b⟩ ⟨ha.1, ha'⟩ ⟨hb.1, hb'⟩
  · intro i v hi
    have hu := vectorUpdate_of_lt (s.SetSeeds ps).InsertCells.m_VoronoiRegions i
      (fun c => c.AddPointId v) hi.1 (by rw [hR]; omega)
    exact ⟨_, (VoronoiRegionAddPointId_ok_iff _ _ i v).2 ⟨_, hu, rfl⟩⟩
  · intro i hi
    have hu := vectorUpdate_of_lt (s.SetSeeds ps).InsertCells.m_VoronoiRegions i
      PolygonCell.ClearPoints hi.1 (by rw [hR]; omega)
    exact ⟨_, (ClearRegion_ok_iff _ _ i).2 ⟨_, hu, rfl⟩⟩

/-- An instance of C19: the three seeds of the scenario of the specification; the
seed id `2` is a valid argument of the three mutators. -/
theorem InsertCells_allocates_witness :
    (∃ t, scenarioSeeded.AddCellNeighbor ⟨2, 0⟩ = .ok t) ∧
      (∃ t, scenarioSeeded.VoronoiRegionAddPointId 2 0 = .ok t) ∧
      (∃ t, scenarioSeeded.ClearRegion 2 = .ok t) :=
  ⟨(InsertCells_allocates (new ⟨0, 0⟩) [⟨0, 0⟩, ⟨10, 0⟩, ⟨5, 10⟩]).2.2.2.2.2.1 2 0
      (by decide) (by decide),
    (InsertCells_allocates (new ⟨0, 0⟩) [⟨0, 0⟩, ⟨10, 0⟩, ⟨5, 10⟩]).2.2.2.2.2.2.1 2 0 (by decide),
    (InsertCells_allocates (new ⟨0, 0⟩) [⟨0, 0⟩, ⟨10, 0⟩, ⟨5, 10⟩]).2.2.2.2.2.2.2 2 (by decide)⟩

/-- C20. For every state, `Reset()` leaves the seeds: `NumberOfSeeds` and
`GetSeed(i)` for every `i` are the same after it as before; it leaves the
regions, the neighbour lists and the boundary as well, and clears the lines, the
edges and the vertices (`LineListSize()`, `EdgeListSize()` and `VertexListSize()`
are `0` after it). -/
theorem Reset_keeps_seeds (s : VoronoiDiagram2D C) :
    s.Reset.GetNumberOfSeeds = s.GetNumberOfSeeds ∧
    (∀ i, s.Reset.GetSeed i = s.GetSeed i) ∧
    s.Reset.m_Seeds = s.m_Seeds ∧
    s.Reset.m_VoronoiRegions = s.m_VoronoiRegions ∧
    s.Reset.m_CellNeighborsID = s.m_CellNeighborsID ∧
    s.Reset.m_VoronoiBoundary = s.m_VoronoiBoundary ∧
    s.Reset.m_VoronoiBoundaryOrigin = s.m_VoronoiBoundaryOrigin ∧
    s.Reset.LineListSize = 0 ∧ s.Reset.EdgeListSize = 0 ∧ s.Reset.VertexListSize = .ok 0 :=
  ⟨rfl, fun _ => rfl, rfl, rfl, rfl, rfl, rfl, rfl, rfl, rfl⟩

end VoronoiDiagram2D

/-! ## The buffer test of ImageFunction -/

theorem ImageFunction.IsInsideBufferFrom_iff {D : Nat} (f : ImageFunction D)
    (index : IndexType D) (js : List (Fin D)) :
    f.IsInsideBufferFrom index js = true ↔
      ∀ j ∈ js, f.m_StartIndex j ≤ index j ∧ index j ≤ f.m_EndIndex j := by
  induction js with
  | nil => simp [ImageFunction.IsInsideBufferFrom]
  | cons j js ih =>
    unfold ImageFunction.IsInsideBufferFrom
    by_cases h1 : index j < f.m_StartIndex j
    · simp only [h1, if_true, List.mem_cons, forall_eq_or_imp]
      constructor
      · intro h
        exact Bool.noConfusion h
      · intro h
        omega
    · by_cases h2 : index j > f.m_EndIndex j
      · simp only [h1, h2, if_true, if_false, List.mem_cons, forall_eq_or_imp]
        constructor
        · intro h
          exact Bool.noConfusion h
        · intro h
          omega
      · simp only [h1, h2, if_false, List.mem_cons, forall_eq_or_imp, ih]
        constructor
        · intro h
          exact ⟨⟨by omega, by omega⟩, h⟩
        · intro h
          exact h.2

/-- C21. The call `ImageFunction::IsInsideBuffer(index)` for an integer index
returns `true` if and only if, for every dimension `j`,
`StartIndex[j] ≤ index[j] ≤ EndIndex[j]`, both bounds included. -/
theorem ImageFunction.IsInsideBuffer_iff {D : Nat} (f : ImageFunction D) (index : IndexType D) :
    f.IsInsideBuffer index = true ↔
      ∀ j : Fin D, f.m_StartIndex j ≤ index j ∧ index j ≤ f.m_EndIndex j := by
  unfold ImageFunction.IsInsideBuffer
  rw [ImageFunction.IsInsideBufferFrom_iff]
  constructor
  · intro h j
    exact h j (List.mem_finRange j)
  · intro h j _
    exact h j

/-! ## The option loop of the test driver -/

namespace TestDriver

/-- With `skip` set, the loop appends every argument left to `args` and does
nothing else. -/
theorem parseLoop_skip {Env : Type} (P : Platform Env) (rest : List String) :
    ∀ st : ParseState Env,
      parseLoop P true rest st = .parsed { st with args := st.args ++ rest } := by
  induction rest with
  | nil =>
    intro st
    rw [parseLoop, List.append_nil]
  | cons a rest ih =>
    intro st
    rw [parseLoop]
    simp only [parseStep, Bool.true_eq_false, false_and, if_false, List.drop_zero]
    rw [ih]
    simp only [List.append_assoc, List.singleton_append]

/-- The turn of the loop that reads `--` with `skip` unset sets `skip`. -/
theorem parseLoop_double_dash {Env : Type} (P : Platform Env) (l : List String)
    (st : ParseState Env) :
    parseLoop P false ("--" :: l) st = .parsed { st with args := st.args ++ l } := by
  rw [parseLoop]
  unfold parseStep
  simp only [true_and]
  simp only [if_true, List.drop_zero]
  exact parseLoop_skip P l st

/-- C22. In the option loop of `itkTestDriver`, once `--` has been seen (the loop
reads it with `skip` unset, or `skip` is set already), every later argument —
`--compare`, `--add-before-env`, `--add-before-libpath`, `--help` and a further
`--` as well — is appended unchanged and in order to `args`, the argument list of
the test program; `compareList`, `envList` and the environment stay as they
were, and the loop runs to its end without a return; with at least one argument
after `--`, the check for an empty `args` that follows the loop does not return
either. -/
theorem parseLoop_after_double_dash {Env : Type} (P : Platform Env) (rest : List String)
    (st : ParseState Env) :
    parseLoop P false ("--" :: rest) st = .parsed { st with args := st.args ++ rest } ∧
    parseLoop P true rest st = .parsed { st with args := st.args ++ rest } ∧
    parseLoop P false
        ("--" :: "--compare" :: "--add-before-env" :: "--add-before-libpath" :: "--help" ::
          "--" :: rest) st
      = .parsed { st with args := st.args ++ ("--compare" :: "--add-before-env" ::
          "--add-before-libpath" :: "--help" :: "--" :: rest) } ∧
    (∀ (env : Env) (av0 a : String),
      parseCommandLine P env (av0 :: "--" :: a :: rest) = .parsed ⟨a :: rest, [], [], env⟩) := by
  refine ⟨parseLoop_double_dash P rest st, parseLoop_skip P rest st,
    parseLoop_double_dash P _ st, ?_⟩
  intro env av0 a
  unfold parseCommandLine
  simp only [List.drop_succ_cons, List.drop_zero]
  rw [parseLoop_double_dash P (a :: rest)]
  rfl

/-! ## The baseline loop of the test driver -/

theorem RegressionTestImage_nonneg (c : Comparison) : 0 ≤ RegressionTestImage c := by
  cases c with
  | baselineReadFails => decide
  | testReadFails => decide
  | sizesDiffer => decide
  | compared d => cases d <;> decide

/-- The loop ends with the iterator at `baselines.end()` unless the best status
is `0`. -/
theorem baselineLoop_end (found : String → Comparison) (fromBaseline : List (String × Int)) :
    ∀ (before : List (String × Int)) (bestBaseline : String) (bestBaselineStatus : Int),
      0 < bestBaselineStatus →
      (baselineLoop found before fromBaseline bestBaseline bestBaselineStatus).bestBaselineStatus
        ≠ 0 →
      (baselineLoop found before fromBaseline bestBaseline bestBaselineStatus).fromBaseline
        = [] := by
  induction fromBaseline with
  | nil =>
    intro before bb bs _ _
    rfl
  | cons e rest ih =>
    obtain ⟨first, second0⟩ := e
    intro before bb bs hpos hne
    have hnn := RegressionTestImage_nonneg (found first)
    unfold baselineLoop at hne ⊢
    by_cases h0 : RegressionTestImage (found first) = 0
    · simp only [h0, if_true, hpos] at hne
      exact absurd rfl hne
    · simp only [h0, if_false] at hne ⊢
      refine ih _ _ _ ?_ hne
      split <;> omega

/-- Whenever the error-image step runs, after the search from `baselines.begin()`,
it writes through `baselines.end()`. -/
theorem errorImageStep_at_end (found : String → Comparison) (baselines : List (String × Int))
    (h : (searchBaselines found baselines).bestBaselineStatus ≠ 0) :
    (searchBaselines found baselines).fromBaseline = [] ∧
      errorImageStep found (searchBaselines found baselines) = .error .undefinedBehaviour := by
  have hend := baselineLoop_end found baselines [] "" (2 ^ 31 - 1) (by decide) h
  refine ⟨hend, ?_⟩
  unfold errorImageStep
  rw [if_pos h]
  have hend' : (searchBaselines found baselines).fromBaseline = [] := hend
  rw [hend']

/-- C29, at a failing input: one candidate baseline, `baseline.png`, whose
comparison with the test image finds a difference.  The loop visits it, stores
the status `1`, and ends with the iterator at `baselines.end()`; the best status
is `1`, the error-image step runs and writes through the end iterator. -/
theorem errorImageStep_single_baseline :
    searchBaselines (fun _ => .compared true) [("baseline.png", 0)]
        = ⟨[("baseline.png", 1)], [], "baseline.png", 1⟩ ∧
      (searchBaselines (fun _ => .compared true) [("baseline.png", 0)]).bestBaselineStatus ≠ 0 ∧
      (searchBaselines (fun _ => .compared true) [("baseline.png", 0)]).fromBaseline = [] ∧
      errorImageStep (fun _ => .compared true)
          (searchBaselines (fun _ => .compared true) [("baseline.png", 0)])
        = .error .undefinedBehaviour := by
  refine ⟨rfl, by decide, rfl, rfl⟩

end TestDriver

/-! ## Neighbour lists, call by call -/

theorem sum_length_set (v : List (List Int)) :
    ∀ (i : Nat) (a : List Int) (y : Int), v[i]? = some a →
      ((v.set i (a ++ [y])).map List.length).sum = (v.map List.length).sum + 1 := by
  induction v with
  | nil =>
    intro i a y h
    simp at h
  | cons hd tl ih =>
    intro i a y h
    cases i with
    | zero =>
      simp only [List.getElem?_cons_zero, Option.some.injEq] at h
      subst h
      simp only [List.set_cons_zero, List.map_cons, List.sum_cons, List.length_append,
        List.length_singleton]
      omega
    | succ k =>
      simp only [List.getElem?_cons_succ] at h
      simp only [List.set_cons_succ, List.map_cons, List.sum_cons, ih k a y h]
      omega

theorem sum_length_vectorUpdate {v v' : List (List Int)} {id y : Int}
    (h : vectorUpdate v id (fun l => l ++ [y]) = .ok v') :
    (v'.map List.length).sum = (v.map List.length).sum + 1 := by
  obtain ⟨a, ha, rfl⟩ := (vectorUpdate_ok_iff v v' id _).1 h
  exact sum_length_set v id.toNat a y ((vectorAt_ok_iff _ _ _).1 ha).2

theorem sum_length_of_all_nil (v : List (List Int)) (h : ∀ l ∈ v, l = []) :
    (v.map List.length).sum = 0 := by
  induction v with
  | nil => rfl
  | cons hd tl ih =>
    have h1 : hd = [] := h hd (List.mem_cons_self _ _)
    have h2 := ih (fun l hl => h l (List.mem_cons_of_mem _ hl))
    simp only [List.map_cons, List.sum_cons, h1, h2, List.length_nil]

namespace VoronoiDiagram2D

variable {C : Type}

theorem neighborsAfter_eq_append (x : EdgeInfo) (j : Int) (l : List Int) :
    neighborsAfter x j l
      = l ++ ((if j = x.c0 then [x.c1] else []) ++ (if j = x.c1 then [x.c0] else [])) := by
  unfold neighborsAfter
  by_cases h0 : j = x.c0 <;> simp [h0]

theorem AddCellNeighbor_table_length {s s' : VoronoiDiagram2D C} {x : EdgeInfo}
    (h : s.AddCellNeighbor x = .ok s') :
    s'.m_CellNeighborsID.length = s.m_CellNeighborsID.length := by
  obtain ⟨n0, n1, e0, e1, rfl⟩ := (AddCellNeighbor_ok_iff s s' x).1 h
  exact (vectorUpdate_length e1).trans (vectorUpdate_length e0)

theorem AddCellNeighbor_totalNeighbors {s s' : VoronoiDiagram2D C} {x : EdgeInfo}
    (h : s.AddCellNeighbor x = .ok s') : s'.totalNeighbors = s.totalNeighbors + 2 := by
  obtain ⟨n0, n1, e0, e1, rfl⟩ := (AddCellNeighbor_ok_iff s s' x).1 h
  unfold totalNeighbors
  simp only
  rw [sum_length_vectorUpdate e1, sum_length_vectorUpdate e0]

/-- Every neighbour list after a sequence of `AddCellNeighbor` calls that went
through: the list before, then what the scan of the calls gives. -/
theorem neighbors_run_addCellNeighborCalls (calls : List EdgeInfo) :
    ∀ {s s' : VoronoiDiagram2D C}, run s (addCellNeighborCalls calls) = .ok s' →
      s'.m_CellNeighborsID.length = s.m_CellNeighborsID.length ∧
      s'.totalNeighbors = s.totalNeighbors + 2 * calls.length ∧
      ∀ j, s'.neighbors j =
        match s.neighbors j with
        | .ok l => .ok (l ++ scanNeighbors j calls)
        | .error e => .error e := by
  induction calls with
  | nil =>
    intro s s' h
    injection h with h
    subst h
    refine ⟨rfl, rfl, fun j => ?_⟩
    cases s.neighbors j with
    | error e => rfl
    | ok l => simp [scanNeighbors]
  | cons x xs ih =>
    intro s s' h
    obtain ⟨s1, e, h1⟩ := run_cons_ok (show run s (Mutator.addCellNeighbor x ::
      addCellNeighborCalls xs) = .ok s' from h)
    have e' : s.AddCellNeighbor x = .ok s1 := e
    obtain ⟨hlen, htot, hnb⟩ := ih h1
    refine ⟨hlen.trans (AddCellNeighbor_table_length e'), ?_, fun j => ?_⟩
    · rw [htot, AddCellNeighbor_totalNeighbors e', List.length_cons]
      omega
    · rw [hnb j, neighbors_AddCellNeighbor e' j]
      cases s.neighbors j with
      | error e => rfl
      | ok l =>
        simp only [neighborsAfter_eq_append, scanNeighbors, List.flatMap_cons, List.append_assoc]

/-- A sequence of `AddCellNeighbor` calls with ids inside the table goes through. -/
theorem run_addCellNeighborCalls_ok (calls : List EdgeInfo) :
    ∀ s : VoronoiDiagram2D C,
      (∀ x ∈ calls, (0 ≤ x.c0 ∧ x.c0 < (s.m_CellNeighborsID.length : Int)) ∧
        (0 ≤ x.c1 ∧ x.c1 < (s.m_CellNeighborsID.length : Int))) →
      ∃ s', run s (addCellNeighborCalls calls) = .ok s' := by
  induction calls with
  | nil => intro s _; exact ⟨s, rfl⟩
  | cons x xs ih =>
    intro s hv
    obtain ⟨h0, h1⟩ := hv x (List.mem_cons_self _ _)
    obtain ⟨s1, e1⟩ := AddCellNeighbor_ok_of_valid s x ⟨h0.1, by omega⟩ ⟨h1.1, by omega⟩
    have hl := AddCellNeighbor_table_length e1
    obtain ⟨s', e'⟩ := ih s1 (fun y hy => by rw [hl]; exact hv y (List.mem_cons_of_mem _ hy))
    refine ⟨s', ?_⟩
    show run s (Mutator.addCellNeighbor x :: addCellNeighborCalls xs) = _
    rw [run_cons_of_ok _ (show (Mutator.addCellNeighbor x).apply s = .ok s1 from e1)]
    exact e'

theorem neighbors_of_all_nil {s : VoronoiDiagram2D C} (h : ∀ l ∈ s.m_CellNeighborsID, l = [])
    {j : Int} (h0 : 0 ≤ j) (h1 : j < (s.m_CellNeighborsID.length : Int)) :
    s.neighbors j = .ok [] := by
  have hlt : j.toNat < s.m_CellNeighborsID.length := by omega
  have hg : s.neighbors j = .ok s.m_CellNeighborsID[j.toNat] := vectorAt_of_lt _ j h0 hlt
  rw [hg, h _ (List.getElem_mem hlt)]

theorem count_scanNeighbors_symm (a b : Int) (calls : List EdgeInfo) :
    (scanNeighbors a calls).count b = (scanNeighbors b calls).count a := by
  induction calls with
  | nil => rfl
  | cons x xs ih =>
    simp only [scanNeighbors, List.flatMap_cons, List.count_append] at ih ⊢
    rw [ih]
    congr 1
    by_cases ha0 : a = x.c0 <;> by_cases ha1 : a = x.c1 <;>
      by_cases hb0 : b = x.c0 <;> by_cases hb1 : b = x.c1 <;>
      simp_all [List.count_cons]

/-- C25. Starting from empty neighbour lists, a sequence of calls
`AddCellNeighbor((a_i, b_i))` with ids inside the neighbour table goes through,
and afterwards the neighbour list of every seed `j` is exactly the list that the
scan of the calls in order gives: `b_i` when `a_i = j`, and then `a_i` when
`b_i = j`.  Nothing is deduplicated: a pair given twice is entered twice in both
lists, and a self-pair `(j, j)` enters `j` twice in the list of `j`. -/
theorem neighbors_eq_scan (s : VoronoiDiagram2D C) (calls : List EdgeInfo)
    (hempty : ∀ l ∈ s.m_CellNeighborsID, l = [])
    (hvalid : ∀ x ∈ calls, (0 ≤ x.c0 ∧ x.c0 < (s.m_CellNeighborsID.length : Int)) ∧
      (0 ≤ x.c1 ∧ x.c1 < (s.m_CellNeighborsID.length : Int))) :
    ∃ s', run s (addCellNeighborCalls calls) = .ok s' ∧
      (∀ j, 0 ≤ j → j < (s.m_CellNeighborsID.length : Int) →
        s'.neighbors j = .ok (scanNeighbors j calls)) ∧
      (∀ a b, a ≠ b → scanNeighbors a [⟨a, b⟩, ⟨a, b⟩] = [b, b] ∧
        scanNeighbors b [⟨a, b⟩, ⟨a, b⟩] = [a, a]) ∧
      (∀ j, scanNeighbors j [⟨j, j⟩] = [j, j]) := by
  obtain ⟨s', hrun⟩ := run_addCellNeighborCalls_ok calls s hvalid
  refine ⟨s', hrun, ?_, ?_, ?_⟩
  · intro j h0 h1
    rw [(neighbors_run_addCellNeighborCalls calls hrun).2.2 j, neighbors_of_all_nil hempty h0 h1]
    rfl
  · intro a b hab
    have hba : ¬ b = a := fun h => hab h.symm
    constructor <;> simp [scanNeighbors, hab, hba]
  · intro j
    simp [scanNeighbors]

/-- An instance of C25: in the scenario of the specification, the calls `(0, 1)`,
`(0, 1)` and `(2, 2)` leave the lists `[1, 1]`, `[0, 0]` and `[2, 2]`. -/
theorem neighbors_eq_scan_witness :
    ∃ s', run scenarioSeeded (addCellNeighborCalls [⟨0, 1⟩, ⟨0, 1⟩, ⟨2, 2⟩]) = .ok s' ∧
      s'.neighbors 0 = .ok [1, 1] ∧ s'.neighbors 1 = .ok [0, 0] ∧ s'.neighbors 2 = .ok [2, 2] := by
  obtain ⟨s', hrun, hscan, _⟩ := neighbors_eq_scan scenarioSeeded [⟨0, 1⟩, ⟨0, 1⟩, ⟨2, 2⟩]
    (by decide) (by decide)
  exact ⟨s', hrun, hscan 0 (by decide) (by decide), hscan 1 (by decide) (by decide),
    hscan 2 (by decide) (by decide)⟩

/-- C26. Neighbour adjacency is symmetric with multiplicity: in the state reached
from empty neighbour lists by `AddCellNeighbor` calls with ids inside the table,
for all seed ids `a` and `b` the number of occurrences of `b` in the neighbour
list of `a` equals the number of occurrences of `a` in that of `b`, and the total
length of all neighbour lists is twice the number of calls. -/
theorem neighbors_count_symmetric (s : VoronoiDiagram2D C) (calls : List EdgeInfo)
    (hempty : ∀ l ∈ s.m_CellNeighborsID, l = [])
    (hvalid : ∀ x ∈ calls, (0 ≤ x.c0 ∧ x.c0 < (s.m_CellNeighborsID.length : Int)) ∧
      (0 ≤ x.c1 ∧ x.c1 < (s.m_CellNeighborsID.length : Int))) :
    ∃ s', run s (addCellNeighborCalls calls) = .ok s' ∧
      (∀ a b la lb, s'.neighbors a = .ok la → s'.neighbors b = .ok lb →
        la.count b = lb.count a) ∧
      s'.totalNeighbors = 2 * calls.length := by
  obtain ⟨s', hrun⟩ := run_addCellNeighborCalls_ok calls s hvalid
  obtain ⟨hlen, htot, hnb⟩ := neighbors_run_addCellNeighborCalls calls hrun
  refine ⟨s', hrun, ?_, ?_⟩
  · intro a b la lb ha hb
    have hva := vectorAt_ok_lt ha
    have hvb := vectorAt_ok_lt hb
    rw [hlen] at hva hvb
    rw [hnb a, neighbors_of_all_nil hempty hva.1 (by omega)] at ha
    rw [hnb b, neighbors_of_all_nil hempty hvb.1 (by omega)] at hb
    injection ha with ha
    injection hb with hb
    subst ha
    subst hb
    simp only [List.nil_append]
    exact count_scanNeighbors_symm a b calls
  · rw [htot]
    unfold totalNeighbors
    rw [sum_length_of_all_nil _ hempty, Nat.zero_add]

/-- An instance of C26: the calls `(0, 1)`, `(0, 1)` and `(2, 2)` in the scenario of
the specification; six entries in all. -/
theorem neighbors_count_symmetric_witness :
    ∃ s', run scenarioSeeded (addCellNeighborCalls [⟨0, 1⟩, ⟨0, 1⟩, ⟨2, 2⟩]) = .ok s' ∧
      (∀ a b la lb, s'.neighbors a = .ok la → s'.neighbors b = .ok lb →
        la.count b = lb.count a) ∧
      s'.totalNeighbors = 2 * 3 :=
  neighbors_count_symmetric scenarioSeeded [⟨0, 1⟩, ⟨0, 1⟩, ⟨2, 2⟩] (by decide) (by decide)

/-- C27, as stated, fails at `2^31` vertices: after `2^31` calls of `AddVert` on a
new mesh the ids `0, ..., 2^31 - 1` are stored (the id `0` is, and the container
holds `2^31` ids), but `VertexListSize()` is `-2^31`, and no id lies in
`{0, ..., VertexListSize() - 1}`. -/
theorem stored_ids_beyond_reported_size :
    run (new ⟨0, 0⟩) (List.replicate (2 ^ 31) (.addVert ⟨0, 0⟩)) = .ok (manyVerts (2 ^ 31)) ∧
      (manyVerts (2 ^ 31)).VertexListSize = .ok (-2 ^ 31) ∧
      (manyVertsContainer (2 ^ 31)).Size = 2 ^ 31 ∧
      0 ∈ (manyVertsContainer (2 ^ 31)).m_Map.keys ∧
      ¬ ((0 : Int) < -2 ^ 31) := by
  refine ⟨?_, ?_, (manyVertsContainer_dense (2 ^ 31)).2, ?_, by decide⟩
  · have h := run_replicate_addVert (2 ^ 31) 0
    rw [Nat.zero_add] at h
    exact h
  · rw [VertexListSize_manyVerts]
    decide
  · rw [(manyVertsContainer_dense (2 ^ 31)).1 0, (manyVertsContainer_dense (2 ^ 31)).2]
    decide

/-- C27 (amended). In every state reached by mutator calls (`AddVert` and
`VertexListClear` among them) from a state with an existing, empty vertex
container, the set of stored vertex ids is exactly `{0, ..., Size() - 1}` for the
size `Size()` of the container, which is `{0, ..., VertexListSize() - 1}` as long
as fewer than `2^31` vertices are stored; hence `AddVert`, which inserts under
the key `Size()`, always inserts under an unused id, makes the container one
larger and leaves every stored vertex as it was. -/
theorem stored_ids_dense (s0 s : VoronoiDiagram2D C) (c0 : PointsContainer C)
    (ms : List (Mutator C)) (hc0 : s0.m_PointsContainer = some c0) (h0 : c0.Size = 0)
    (hrun : run s0 ms = .ok s) :
    ∃ c, s.m_PointsContainer = some c ∧
      (∀ k, k ∈ c.m_Map.keys ↔ k < c.Size) ∧
      (c.Size < 2 ^ 31 → ∃ n, s.VertexListSize = .ok n ∧
        ∀ k : Nat, k ∈ c.m_Map.keys ↔ (k : Int) < n) ∧
      c.Size ∉ c.m_Map.keys ∧
      ∀ x, ∃ s' c', s.AddVert x = .ok s' ∧ s'.m_PointsContainer = some c' ∧
        c'.Size = c.Size + 1 ∧ c'.m_Map.lookup c.Size = some x ∧
        ∀ k ∈ c.m_Map.keys, c'.m_Map.lookup k = c.m_Map.lookup k := by
  obtain ⟨c, hc, hd, _⟩ := run_points ms hrun hc0 (PointsDense_of_Size_eq_zero h0)
  have hnot : c.Size ∉ c.m_Map.keys := fun hm => Nat.lt_irrefl _ ((hd _).1 hm)
  refine ⟨c, hc, hd, ?_, hnot, ?_⟩
  · intro hs
    refine ⟨static_cast_int c.Size, ?_, ?_⟩
    · unfold VertexListSize
      rw [hc]
    · intro k
      rw [static_cast_int_of_lt hs, hd k]
      omega
  · intro x
    refine ⟨_, _, (AddVert_ok_iff s _ x).2 ⟨c, hc, rfl⟩, rfl, (PointsDense_InsertElement hd x).2,
      ?_, ?_⟩
    · simp only [PointsContainer.InsertElement, AList.lookup_insert]
    · intro k hk
      have hne : k ≠ c.Size := fun h => hnot (h ▸ hk)
      simp only [PointsContainer.InsertElement, AList.lookup_insert_ne hne]

/-- An instance of C27 (amended): at the end of the scenario of the specification
the one stored id is `0`, and `VertexListSize()` is `1`. -/
theorem stored_ids_dense_witness :
    ∃ c, scenarioBuilt.m_PointsContainer = some c ∧
      (∀ k, k ∈ c.m_Map.keys ↔ k < c.Size) ∧
      (c.Size < 2 ^ 31 → ∃ n, scenarioBuilt.VertexListSize = .ok n ∧
        ∀ k : Nat, k ∈ c.m_Map.keys ↔ (k : Int) < n) ∧
      c.Size ∉ c.m_Map.keys ∧
      ∀ x, ∃ s' c', scenarioBuilt.AddVert x = .ok s' ∧ s'.m_PointsContainer = some c' ∧
        c'.Size = c.Size + 1 ∧ c'.m_Map.lookup c.Size = some x ∧
        ∀ k ∈ c.m_Map.keys, c'.m_Map.lookup k = c.m_Map.lookup k :=
  stored_ids_dense scenarioSeeded scenarioBuilt PointsContainer.New scenarioCalls rfl rfl rfl

/-- C28. Each list clear changes its own list only.  `LineListClear` leaves the
edge list (every edge's `m_LineID` with it), the vertices, the seeds, the regions
and the neighbour lists as they were; `EdgeListClear` leaves the lines, the
vertices, the seeds, the regions and the neighbour lists; `VertexListClear`
leaves the lines, the edges, the seeds, the neighbour lists and the regions, the
point-id sequence of every region with them. -/
theorem clears_frame (s : VoronoiDiagram2D C) :
    (s.LineListClear.m_EdgeList = s.m_EdgeList ∧
      (∀ i, s.LineListClear.GetEdge i = s.GetEdge i ∧
        s.LineListClear.GetEdgeLineID i = s.GetEdgeLineID i) ∧
      s.LineListClear.m_PointsContainer = s.m_PointsContainer ∧
      s.LineListClear.m_Seeds = s.m_Seeds ∧
      s.LineListClear.m_NumberOfSeeds = s.m_NumberOfSeeds ∧
      s.LineListClear.m_VoronoiRegions = s.m_VoronoiRegions ∧
      s.LineListClear.m_CellNeighborsID = s.m_CellNeighborsID) ∧
    (s.EdgeListClear.m_LineList = s.m_LineList ∧
      s.EdgeListClear.m_PointsContainer = s.m_PointsContainer ∧
      s.EdgeListClear.m_Seeds = s.m_Seeds ∧
      s.EdgeListClear.m_NumberOfSeeds = s.m_NumberOfSeeds ∧
      s.EdgeListClear.m_VoronoiRegions = s.m_VoronoiRegions ∧
      s.EdgeListClear.m_CellNeighborsID = s.m_CellNeighborsID) ∧
    (s.VertexListClear.m_LineList = s.m_LineList ∧
      s.VertexListClear.m_EdgeList = s.m_EdgeList ∧
      s.VertexListClear.m_Seeds = s.m_Seeds ∧
      s.VertexListClear.m_NumberOfSeeds = s.m_NumberOfSeeds ∧
      s.VertexListClear.m_CellNeighborsID = s.m_CellNeighborsID ∧
      s.VertexListClear.m_VoronoiRegions = s.m_VoronoiRegions ∧
      (∀ j, s.VertexListClear.regionPointIds j = s.regionPointIds j)) ∧
    (s.LineListClear.m_LineList = [] ∧ s.EdgeListClear.m_EdgeList = [] ∧
      s.VertexListClear.VertexListSize = .ok 0) :=
  ⟨⟨rfl, fun _ => ⟨rfl, rfl⟩, rfl, rfl, rfl, rfl, rfl⟩, ⟨rfl, rfl, rfl, rfl, rfl, rfl⟩,
    ⟨rfl, rfl, rfl, rfl, rfl, rfl, fun _ => rfl⟩, ⟨rfl, rfl, rfl⟩⟩

end VoronoiDiagram2D

end itk
